import Mathlib

/-!
# The tic-tac-toe page script `script.js`

A shallow embedding of `src/script.js`. For the game, the module variables
`board`, `currentPlayer`, `gameOver`, the status element's text and the `.cell`
buttons of the board element are the fields of one record, and every function of
the script that touches them is a function on that record. For the appearance
preferences, the `data-theme` attribute, the toggle button and `localStorage` are
the fields of a second record, and the colour functions return what they hand to
the style.

JavaScript values are embedded as follows.
* A cell of `board` is a string; reading `board[i]` yields `Option String`, where
  `none` stands for `undefined` (no such element).
* The number produced by `Number(e.currentTarget.dataset.index)` is a `JSNumber`:
  either a whole number (an `Int`; `-0` is `0`) or a value that is not a whole number
  (a fraction, `NaN`, an infinity).
* A handler that throws is `Except.error`, carrying the variables as the throw
  left them; a handler that returns is `Except.ok`.
-/

namespace TicTacToe

/-- The value of `Number(e.currentTarget.dataset.index)`. -/
inductive JSNumber where
  | whole (i : Int)
  | nonWhole
deriving DecidableEq, Repr

/-- One `.cell` button of the board element, as far as the script writes to it. -/
structure CellView where
  textContent : String
  disabled : Bool
  win : Bool
deriving DecidableEq, Repr

/-- The mutable state the game functions read and write: the three module variables
(`script.js` lines 91-93), `statusEl.textContent`, and the `.cell` buttons found by
`boardEl.querySelectorAll(".cell")`. -/
structure Game where
  board : List String
  currentPlayer : String
  gameOver : Bool
  statusText : String
  cells : List CellView
deriving DecidableEq, Repr

/-- `WIN_LINES` (lines 95-104), in the declared order. -/
def WIN_LINES : List (Nat × Nat × Nat) :=
  [(0, 1, 2), (3, 4, 5), (6, 7, 8),
   (0, 3, 6), (1, 4, 7), (2, 5, 8),
   (0, 4, 8), (2, 4, 6)]

/-- `b[index]` for an array `b` and a number `index`: the element when `index` is a
whole number in `0 .. b.length - 1`, otherwise `undefined`. -/
def arrayGet (b : List String) : JSNumber → Option String
  | .whole i => if 0 ≤ i then b[i.toNat]? else none
  | .nonWhole => none

/-- `b[index] = v`. Inside the elements of the array this overwrites the element.
Elsewhere JavaScript would add a property or grow the array; `onCellClick` only
assigns after `board[index] === ""` held, so that case is never reached and the
array is returned as it is. -/
def arraySet (b : List String) (index : JSNumber) (v : String) : List String :=
  match index with
  | .whole i => if 0 ≤ i then b.set i.toNat v else b
  | .nonWhole => b

/-- The test `b[a] && b[a] === b[c] && b[a] === b[d]` of `getWinningLine`: `b[a]` is
truthy (a non-empty string, not `undefined`) and strictly equal to both others. -/
def lineMatches (b : List String) (l : Nat × Nat × Nat) : Bool :=
  match b[l.1]? with
  | none => false
  | some x => x ≠ "" && b[l.2.1]? == some x && b[l.2.2]? == some x

/-- The loop of `getWinningLine` over a list of lines: the first line that matches
is returned as the array `[a, c, d]`, `null` (here `none`) when the loop runs out. -/
def getWinningLineIn (b : List String) : List (Nat × Nat × Nat) → Option (List Nat)
  | [] => none
  | (a, c, d) :: rest =>
    if lineMatches b (a, c, d) then some [a, c, d] else getWinningLineIn b rest

/-- `getWinningLine(b)` (lines 166-171). -/
def getWinningLine (b : List String) : Option (List Nat) :=
  getWinningLineIn b WIN_LINES

/-- `isDraw(b)` (lines 173-175): `b.every((cell) => cell !== "")`. -/
def isDraw (b : List String) : Bool :=
  b.all (fun cell => cell ≠ "")

/-- The body of the `forEach` callback of `render` for the button at position `i`.
A `textContent` set to `undefined` becomes the empty string. -/
def renderCell (board : List String) (gameOver : Bool) (i : Nat) (_btn : CellView) :
    CellView :=
  { textContent := (board[i]?).getD ""
    disabled := gameOver || board[i]? ≠ some ""
    win := false }

/-- The function `render()` (lines 128-135). -/
def render (s : Game) : Game :=
  { s with cells := s.cells.mapIdx (renderCell s.board s.gameOver) }

/-- `highlightWin(line)` (lines 177-180) on the list of buttons: each index of the
line gets the class `win`; `cells[idx]` being `undefined` throws a `TypeError`, and
the error carries the buttons as changed so far. -/
def highlightWin (cells : List CellView) :
    List Nat → Except (List CellView) (List CellView)
  | [] => .ok cells
  | idx :: rest =>
    match cells[idx]? with
    | none => .error cells
    | some btn => highlightWin (cells.set idx { btn with win := true }) rest

/-- `onCellClick(e)` (lines 137-164), with `index` the number read from the event
target. `Except.ok` is a normal return, `Except.error` a thrown exception; both carry
the state the handler leaves behind. -/
def onCellClick (s : Game) (index : JSNumber) : Except Game Game :=
  if s.gameOver then .ok s
  else if arrayGet s.board index ≠ some "" then .ok s
  else
    let s1 := { s with board := arraySet s.board index s.currentPlayer }
    match getWinningLine s1.board with
    | some winLine =>
      let s2 := { s1 with gameOver := true, statusText := s1.currentPlayer ++ " wins!" }
      match highlightWin s2.cells winLine with
      | .error cells => .error { s2 with cells := cells }
      | .ok cells => .ok (render { s2 with cells := cells })
    | none =>
      if isDraw s1.board then
        .ok (render { s1 with gameOver := true, statusText := "Draw!" })
      else
        let s2 := { s1 with currentPlayer := if s1.currentPlayer = "X" then "O" else "X" }
        .ok (render { s2 with statusText := s2.currentPlayer ++ "’s turn" })

/-- `restartGame()` (lines 182-188). -/
def restartGame (s : Game) : Game :=
  render { s with
    board := List.replicate 9 ""
    currentPlayer := "X"
    gameOver := false
    statusText := "X’s turn" }

/-- The buttons `buildBoardUI()` (lines 112-126) appends to the board element: nine
fresh buttons with no text, enabled, of class `cell` only. -/
def buildBoardUI : List CellView :=
  List.replicate 9 { textContent := "", disabled := false, win := false }

/-- The state once the script has loaded: the initial module variables, the buttons
of `buildBoardUI()` after the first `render()`. The text the page gives the status
element is not set by the script and is a parameter. -/
def initialState (pageStatus : String) : Game :=
  render
    { board := List.replicate 9 ""
      currentPlayer := "X"
      gameOver := false
      statusText := pageStatus
      cells := buildBoardUI }

/-- The state a cell activation leaves behind, whether the handler returned or
threw. -/
def afterClick (s : Game) (index : JSNumber) : Game :=
  match onCellClick s index with
  | .ok t => t
  | .error t => t

/-- The state after a sequence of cell activations, in order. -/
def afterClicks (s : Game) (indices : List JSNumber) : Game :=
  indices.foldl afterClick s

/-- An index that names no cell: a whole number below 0 or above 8, or a number that
is not whole. -/
def OutOfRange : JSNumber → Prop
  | .whole i => i < 0 ∨ 8 < i
  | .nonWhole => True

/-- What the script maintains about its variables in every state it can get into. -/
structure Inv (s : Game) : Prop where
  length_board : s.board.length = 9
  length_cells : s.cells.length = 9
  cell_values : ∀ c ∈ s.board, c = "" ∨ c = "X" ∨ c = "O"
  player : s.currentPlayer = "X" ∨ s.currentPlayer = "O"
  running_no_line : s.gameOver = false → ∀ l ∈ WIN_LINES, lineMatches s.board l = false
  running_not_full : s.gameOver = false → isDraw s.board = false
  over_cause : s.gameOver = true →
    (∃ l ∈ WIN_LINES, lineMatches s.board l = true) ∨ isDraw s.board = true
  over_lines : s.gameOver = true →
    ∀ l ∈ WIN_LINES, lineMatches s.board l = true → s.board[l.1]? = some s.currentPlayer
  running_counts : s.gameOver = false →
    (s.currentPlayer = "X" ∧ s.board.count "X" = s.board.count "O") ∨
    (s.currentPlayer = "O" ∧ s.board.count "X" = s.board.count "O" + 1)
  over_counts : s.gameOver = true →
    (s.currentPlayer = "X" ∧ s.board.count "X" = s.board.count "O" + 1) ∨
    (s.currentPlayer = "O" ∧ s.board.count "X" = s.board.count "O")

/-- The guard of `onCellClick` let the activation through: neither early `return`
(lines 138 and 141) was taken. -/
def accepted (s : Game) (index : JSNumber) : Bool :=
  !s.gameOver && decide (arrayGet s.board index = some "")

/-- Every activation of the sequence, run in order, is accepted. -/
def allAccepted (s : Game) : List JSNumber → Bool
  | [] => true
  | i :: rest => accepted s i && allAccepted (afterClick s i) rest

/-- The markers written by the accepted activations of a sequence, in order: for
each accepted activation, what `board[index]` reads once the handler is done. -/
def markersPlaced (s : Game) : List JSNumber → List (Option String)
  | [] => []
  | i :: rest =>
    if accepted s i then
      arrayGet (afterClick s i).board i :: markersPlaced (afterClick s i) rest
    else markersPlaced (afterClick s i) rest

/-- States reached from the loaded page by legal moves only: each activation is at
an index in `0 .. 8` whose cell is empty, while the game is not over. -/
inductive LegalReach (pageStatus : String) : Game → Prop
  | init : LegalReach pageStatus (initialState pageStatus)
  | move (s : Game) (i : Int) : LegalReach pageStatus s → s.gameOver = false →
      0 ≤ i → i ≤ 8 → arrayGet s.board (.whole i) = some "" →
      LegalReach pageStatus (afterClick s (.whole i))

/-- The lines of `WIN_LINES` that match on a board, in the declared order. -/
def matchingLines (b : List String) : List (Nat × Nat × Nat) :=
  WIN_LINES.filter (lineMatches b)

/-- A line lies inside a set of cells given as one flag per cell. -/
def lineInside (mask : List Bool) (l : Nat × Nat × Nat) : Bool :=
  (mask[l.1]?).getD false && (mask[l.2.1]?).getD false && (mask[l.2.2]?).getD false

/-- States reached from the loaded page by any sequence of cell activations, at any
index, and restarts. -/
inductive Reach (pageStatus : String) : Game → Prop
  | init : Reach pageStatus (initialState pageStatus)
  | click (s : Game) (index : JSNumber) : Reach pageStatus s →
      Reach pageStatus (afterClick s index)
  | restart (s : Game) : Reach pageStatus s → Reach pageStatus (restartGame s)

/-! ## Appearance preferences (lines 8-88) -/

/-- `THEME_KEY` (line 8). -/
def THEME_KEY : String := "ttt_theme"

/-- `BOARD_COLOR_KEY` (line 9). -/
def BOARD_COLOR_KEY : String := "ttt_board_color"

/-- `MARKER_COLOR_KEY` (line 10). -/
def MARKER_COLOR_KEY : String := "ttt_marker_color"

/-- One value of the object `RAINBOW`. -/
structure PaletteEntry where
  tint : String
  marker : String
deriving DecidableEq, Repr

/-- The own properties of the object literal `RAINBOW` (lines 13-21). -/
def RAINBOW : List (String × PaletteEntry) :=
  [("red", { tint := "rgba(239, 68, 68, 0.55)", marker := "#ef4444" }),
   ("orange", { tint := "rgba(249, 115, 22, 0.55)", marker := "#f97316" }),
   ("yellow", { tint := "rgba(234, 179, 8, 0.55)", marker := "#eab308" }),
   ("green", { tint := "rgba(34, 197, 94, 0.55)", marker := "#22c55e" }),
   ("blue", { tint := "rgba(59, 130, 246, 0.55)", marker := "#3b82f6" }),
   ("indigo", { tint := "rgba(99, 102, 241, 0.55)", marker := "#6366f1" }),
   ("violet", { tint := "rgba(168, 85, 247, 0.55)", marker := "#a855f7" })]

/-- The property names an object literal inherits from `Object.prototype`: a read
`obj[name]` of one of them finds a function (for `__proto__` the prototype object)
when `obj` has no own property of that name. -/
def objectPrototypeKeys : List String :=
  ["constructor", "hasOwnProperty", "isPrototypeOf", "propertyIsEnumerable",
   "toLocaleString", "toString", "valueOf", "__proto__", "__defineGetter__",
   "__defineSetter__", "__lookupGetter__", "__lookupSetter__"]

/-- What a read `RAINBOW[colorName]` can yield: an own palette entry, a value
inherited from `Object.prototype` (truthy, with no `tint` or `marker` property), or
`undefined`. -/
inductive PropertyValue where
  | own (e : PaletteEntry)
  | inherited
  | undefined
deriving DecidableEq, Repr

/-- The read `RAINBOW[colorName]`: own properties first, then the prototype. -/
def rainbowGet (colorName : String) : PropertyValue :=
  match RAINBOW.lookup colorName with
  | some e => .own e
  | none => if colorName ∈ objectPrototypeKeys then .inherited else .undefined

/-- `v || RAINBOW.blue`: only `undefined` is falsy among the values of a read. -/
def orBlue (v : PropertyValue) : PropertyValue :=
  match v with
  | .undefined => rainbowGet "blue"
  | .own e => .own e
  | .inherited => .inherited

/-- `c.tint`, with `none` for `undefined`. -/
def PropertyValue.tint : PropertyValue → Option String
  | .own e => some e.tint
  | .inherited => none
  | .undefined => none

/-- `c.marker`, with `none` for `undefined`. -/
def PropertyValue.marker : PropertyValue → Option String
  | .own e => some e.marker
  | .inherited => none
  | .undefined => none

/-- `applyBoardColor(colorName)` (lines 47-50): the value handed to
`style.setProperty("--boardTint", ·)`, `none` standing for `undefined`. -/
def applyBoardColor (colorName : String) : Option String :=
  (orBlue (rainbowGet colorName)).tint

/-- `applyMarkerColor(colorName)` (lines 52-55): the value handed to
`style.setProperty("--markerColor", ·)`, `none` standing for `undefined`. -/
def applyMarkerColor (colorName : String) : Option String :=
  (orBlue (rainbowGet colorName)).marker

/-- `localStorage.getItem(key)`: the stored string, `none` for `null`. -/
def getItem (store : List (String × String)) (key : String) : Option String :=
  store.lookup key

/-- `localStorage.setItem(key, value)`: the store with `key` now mapped to `value`. -/
def setItem (store : List (String × String)) (key value : String) :
    List (String × String) :=
  (key, value) :: store.filter (fun kv => kv.1 ≠ key)

/-- `x || d` for `x` a string or `null`: `null` and the empty string are falsy. -/
def jsOr (x : Option String) (d : String) : String :=
  match x with
  | none => d
  | some v => if v = "" then d else v

/-- The element with id `themeToggleBtn`, as far as the script writes to it. -/
structure ToggleButton where
  textContent : String
  ariaPressed : String
deriving DecidableEq, Repr

/-- What the theme functions read and write: the `data-theme` attribute of the root
element (`none` when absent), the toggle button (`none` when `getElementById` finds
none) and the contents of `localStorage`. -/
structure Page where
  dataTheme : Option String
  themeToggleBtn : Option ToggleButton
  localStorage : List (String × String)
deriving DecidableEq, Repr

/-- `applyTheme(theme)` (lines 23-33); `theme` is `none` for a missing argument,
`null` or `undefined`. -/
def applyTheme (theme : Option String) (pg : Page) : Page :=
  let t := if theme = some "light" then "light" else "dark"
  let pg1 := { pg with dataTheme := some t }
  match pg1.themeToggleBtn with
  | none => pg1
  | some btn =>
    let isLight : Bool := decide (t = "light")
    { pg1 with
      themeToggleBtn := some
        { btn with
          textContent := if isLight then "Dark mode" else "Light mode"
          ariaPressed := toString isLight } }

/-- The argument `saved || "dark"` that `initTheme` hands to `applyTheme`. -/
def savedTheme (store : List (String × String)) : String :=
  jsOr (getItem store THEME_KEY) "dark"

/-- `initTheme()` (lines 35-38). -/
def initTheme (pg : Page) : Page :=
  applyTheme (some (savedTheme pg.localStorage)) pg

/-- `toggleTheme()` (lines 40-45). -/
def toggleTheme (pg : Page) : Page :=
  let current := jsOr pg.dataTheme "dark"
  let next := if current = "light" then "dark" else "light"
  applyTheme (some next) { pg with localStorage := setItem pg.localStorage THEME_KEY next }

/-- `savedBoard` of `initColorPickers` (line 61). -/
def savedBoard (store : List (String × String)) : String :=
  jsOr (getItem store BOARD_COLOR_KEY) "blue"

/-- `savedMarker` of `initColorPickers` (line 62). -/
def savedMarker (store : List (String × String)) : String :=
  jsOr (getItem store MARKER_COLOR_KEY) "blue"

/-- The `change` listener of the board colour select (lines 74-78): the store after
`setItem` and the value `applyBoardColor` hands to the style. -/
def boardColorChanged (store : List (String × String)) (value : String) :
    List (String × String) × Option String :=
  (setItem store BOARD_COLOR_KEY value, applyBoardColor value)

/-- The `change` listener of the marker colour select (lines 82-86). -/
def markerColorChanged (store : List (String × String)) (value : String) :
    List (String × String) × Option String :=
  (setItem store MARKER_COLOR_KEY value, applyMarkerColor value)

/-! ## Basic facts about the handlers -/

@[simp] theorem render_board (s : Game) : (render s).board = s.board := rfl
@[simp] theorem render_currentPlayer (s : Game) : (render s).currentPlayer = s.currentPlayer := rfl
@[simp] theorem render_gameOver (s : Game) : (render s).gameOver = s.gameOver := rfl
@[simp] theorem render_statusText (s : Game) : (render s).statusText = s.statusText := rfl
@[simp] theorem render_cells_length (s : Game) : (render s).cells.length = s.cells.length := by
  simp [render]

theorem onCellClick_rejected (s : Game) (index : JSNumber)
    (h : s.gameOver = true ∨ arrayGet s.board index ≠ some "") :
    onCellClick s index = .ok s := by
  unfold onCellClick
  rcases h with h | h
  · simp [h]
  · by_cases hg : s.gameOver = true
    · simp [hg]
    · simp [hg, h]

theorem afterClick_rejected (s : Game) (index : JSNumber)
    (h : s.gameOver = true ∨ arrayGet s.board index ≠ some "") :
    afterClick s index = s := by
  simp [afterClick, onCellClick_rejected s index h]

/-- The four script variables after an accepted activation. -/
theorem afterClick_accepted (s : Game) (index : JSNumber)
    (hg : s.gameOver = false) (hc : arrayGet s.board index = some "") :
    (afterClick s index).board = arraySet s.board index s.currentPlayer ∧
    (afterClick s index).gameOver =
      ((getWinningLine (arraySet s.board index s.currentPlayer)).isSome ||
        isDraw (arraySet s.board index s.currentPlayer)) ∧
    (afterClick s index).currentPlayer =
      (if (getWinningLine (arraySet s.board index s.currentPlayer)).isSome ||
          isDraw (arraySet s.board index s.currentPlayer) then s.currentPlayer
       else if s.currentPlayer = "X" then "O" else "X") ∧
    (afterClick s index).statusText =
      (if (getWinningLine (arraySet s.board index s.currentPlayer)).isSome then
          s.currentPlayer ++ " wins!"
       else if isDraw (arraySet s.board index s.currentPlayer) then "Draw!"
       else (if s.currentPlayer = "X" then "O" else "X") ++ "’s turn") := by
  unfold afterClick onCellClick
  simp only [hg, hc]
  cases hw : getWinningLine (arraySet s.board index s.currentPlayer) with
  | some winLine =>
    simp only []
    cases hh : highlightWin s.cells winLine <;> simp
  | none =>
    by_cases hd : isDraw (arraySet s.board index s.currentPlayer) = true
    · simp [hd]
    · simp [hd]

theorem arrayGet_eq_some (b : List String) (index : JSNumber) (x : String)
    (h : arrayGet b index = some x) :
    ∃ j : Nat, index = .whole (j : Int) ∧ b[j]? = some x ∧ j < b.length := by
  cases index with
  | nonWhole => simp [arrayGet] at h
  | whole i =>
    by_cases hi : 0 ≤ i
    · simp only [arrayGet, hi, if_true] at h
      refine ⟨i.toNat, ?_, h, ?_⟩
      · rw [Int.toNat_of_nonneg hi]
      · exact (List.getElem?_eq_some_iff.mp h).1
    · simp [arrayGet, hi] at h

@[simp] theorem arraySet_whole_nat (b : List String) (j : Nat) (v : String) :
    arraySet b (.whole (j : Int)) v = b.set j v := by
  simp [arraySet]

@[simp] theorem arrayGet_whole_nat (b : List String) (j : Nat) :
    arrayGet b (.whole (j : Int)) = b[j]? := by
  simp [arrayGet]

@[simp] theorem arraySet_length (b : List String) (index : JSNumber) (v : String) :
    (arraySet b index v).length = b.length := by
  cases index with
  | nonWhole => rfl
  | whole i => by_cases hi : 0 ≤ i <;> simp [arraySet, hi]

/-- An activation never changes a cell that already holds a non-empty string. -/
theorem afterClick_keeps_marker (s : Game) (index : JSNumber) (j : Nat) (x : String)
    (hx : s.board[j]? = some x) (hne : x ≠ "") :
    (afterClick s index).board[j]? = some x := by
  by_cases hr : s.gameOver = true ∨ arrayGet s.board index ≠ some ""
  · rw [afterClick_rejected s index hr]; exact hx
  · have hg : s.gameOver = false := by
      cases h : s.gameOver with
      | false => rfl
      | true => exact absurd (Or.inl h) hr
    have hc : arrayGet s.board index = some "" := by
      by_contra h; exact hr (Or.inr h)
    obtain ⟨k, rfl, hk, -⟩ := arrayGet_eq_some _ _ _ hc
    rw [(afterClick_accepted s _ hg hc).1, arraySet_whole_nat]
    have hkj : k ≠ j := by
      rintro rfl
      rw [hk] at hx
      exact hne (Option.some.inj hx).symm
    rw [List.getElem?_set_ne hkj]; exact hx

theorem afterClick_length (s : Game) (index : JSNumber) :
    (afterClick s index).board.length = s.board.length := by
  by_cases hr : s.gameOver = true ∨ arrayGet s.board index ≠ some ""
  · rw [afterClick_rejected s index hr]
  · have hg : s.gameOver = false := by
      cases h : s.gameOver with
      | false => rfl
      | true => exact absurd (Or.inl h) hr
    have hc : arrayGet s.board index = some "" := by
      by_contra h; exact hr (Or.inr h)
    rw [(afterClick_accepted s _ hg hc).1, arraySet_length]

theorem afterClicks_gameOver (s : Game) (hg : s.gameOver = true) (indices : List JSNumber) :
    afterClicks s indices = s := by
  induction indices with
  | nil => rfl
  | cons i rest ih =>
    show afterClicks (afterClick s i) rest = s
    rw [afterClick_rejected s i (Or.inl hg)]; exact ih

theorem list_of_length_nine {α : Type} (l : List α) (h : l.length = 9) :
    ∃ a0 a1 a2 a3 a4 a5 a6 a7 a8, l = [a0, a1, a2, a3, a4, a5, a6, a7, a8] := by
  match l, h with
  | [a0, a1, a2, a3, a4, a5, a6, a7, a8], _ => exact ⟨a0, a1, a2, a3, a4, a5, a6, a7, a8, rfl⟩

theorem getWinningLineIn_eq_none (b : List String) (ls : List (Nat × Nat × Nat)) :
    getWinningLineIn b ls = none ↔ ∀ l ∈ ls, lineMatches b l = false := by
  induction ls with
  | nil => simp [getWinningLineIn]
  | cons l rest ih =>
    obtain ⟨a, c, d⟩ := l
    by_cases h : lineMatches b (a, c, d) = true
    · simp [getWinningLineIn, h]
    · simp [getWinningLineIn, h, ih]

theorem getWinningLine_eq_none (b : List String) :
    getWinningLine b = none ↔ ∀ l ∈ WIN_LINES, lineMatches b l = false :=
  getWinningLineIn_eq_none b WIN_LINES

theorem getWinningLine_isSome (b : List String) :
    (getWinningLine b).isSome = true ↔ ∃ l ∈ WIN_LINES, lineMatches b l = true := by
  rw [← Option.ne_none_iff_isSome, Ne, getWinningLine_eq_none]
  simp

/-- The line reported is the first one of the list, in order, that matches. -/
theorem getWinningLineIn_eq_some (b : List String) (ls : List (Nat × Nat × Nat))
    (r : List Nat) (h : getWinningLineIn b ls = some r) :
    ∃ j l, ls[j]? = some l ∧ r = [l.1, l.2.1, l.2.2] ∧ lineMatches b l = true ∧
      ∀ (m : Nat) (l' : Nat × Nat × Nat), m < j → ls[m]? = some l' →
        lineMatches b l' = false := by
  induction ls with
  | nil => simp [getWinningLineIn] at h
  | cons l rest ih =>
    obtain ⟨a, c, d⟩ := l
    by_cases hm : lineMatches b (a, c, d) = true
    · simp only [getWinningLineIn, hm, if_true] at h
      refine ⟨0, (a, c, d), by simp, ?_, hm, ?_⟩
      · exact (Option.some.inj h).symm
      · intro m l' hlt; omega
    · simp only [getWinningLineIn, hm] at h
      obtain ⟨j, l, hj, hr, hl, hbefore⟩ := ih h
      refine ⟨j + 1, l, by simpa using hj, hr, hl, ?_⟩
      intro m l' hlt hm'
      cases m with
      | zero =>
        simp at hm'
        subst hm'
        simpa using hm
      | succ m =>
        exact hbefore m l' (by omega) (by simpa using hm')

theorem lineMatches_set_of_not_mem (b : List String) (k : Nat) (v : String)
    (l : Nat × Nat × Nat) (h1 : k ≠ l.1) (h2 : k ≠ l.2.1) (h3 : k ≠ l.2.2) :
    lineMatches (b.set k v) l = lineMatches b l := by
  simp [lineMatches, List.getElem?_set_ne h1, List.getElem?_set_ne h2, List.getElem?_set_ne h3]

/-- A matching line holds one non-empty string in all of its three cells. -/
theorem lineMatches_iff (b : List String) (l : Nat × Nat × Nat) :
    lineMatches b l = true ↔
      ∃ x, x ≠ "" ∧ b[l.1]? = some x ∧ b[l.2.1]? = some x ∧ b[l.2.2]? = some x := by
  unfold lineMatches
  cases h : b[l.1]? with
  | none => simp
  | some x =>
    simp only [Bool.and_eq_true, decide_eq_true_eq, beq_iff_eq, Option.some.injEq]
    constructor
    · rintro ⟨⟨h1, h2⟩, h3⟩; exact ⟨x, h1, rfl, h2, h3⟩
    · rintro ⟨y, h1, h2, h3, h4⟩; subst h2; exact ⟨⟨h1, h3⟩, h4⟩

theorem count_two_le_length (b : List String) :
    b.count "X" + b.count "O" ≤ b.length := by
  induction b with
  | nil => simp
  | cons c rest ih =>
    simp only [List.count_cons, List.length_cons]
    by_cases h1 : c = "X"
    · subst h1; simp; omega
    · by_cases h2 : c = "O"
      · subst h2; simp; omega
      · simp [h1, h2]; omega

theorem isDraw_eq_true (b : List String) : isDraw b = true ↔ ∀ c ∈ b, c ≠ "" := by
  simp [isDraw]

theorem highlightWin_length (cells : List CellView) (line : List Nat) :
    (∀ cs, highlightWin cells line = .ok cs → cs.length = cells.length) ∧
    (∀ cs, highlightWin cells line = .error cs → cs.length = cells.length) := by
  induction line generalizing cells with
  | nil => simp [highlightWin]
  | cons idx rest ih =>
    cases h : cells[idx]? with
    | none => simp [highlightWin, h]
    | some btn =>
      simp only [highlightWin, h]
      have := ih (cells.set idx { btn with win := true })
      simpa using this

theorem afterClick_cells_length (s : Game) (index : JSNumber) :
    (afterClick s index).cells.length = s.cells.length := by
  unfold afterClick onCellClick
  by_cases hg : s.gameOver = true
  · simp [hg]
  · by_cases hc : arrayGet s.board index ≠ some ""
    · simp [hg, hc]
    · simp only [hg, hc]
      cases hw : getWinningLine (arraySet s.board index s.currentPlayer) with
      | some winLine =>
        simp only []
        cases hh : highlightWin s.cells winLine with
        | ok cs => simpa using (highlightWin_length s.cells winLine).1 cs hh
        | error cs => simpa using (highlightWin_length s.cells winLine).2 cs hh
      | none =>
        by_cases hd : isDraw (arraySet s.board index s.currentPlayer) = true
        · simp [hd]
        · simp [hd]

theorem empty_board_no_line :
    ∀ l ∈ WIN_LINES, lineMatches (List.replicate 9 "") l = false := by decide

theorem empty_board_not_full : isDraw (List.replicate 9 "") = false := by decide

theorem empty_board_counts :
    (List.replicate 9 "").count "X" = (List.replicate 9 "").count "O" := by decide

theorem Inv_initialState (pageStatus : String) : Inv (initialState pageStatus) where
  length_board := rfl
  length_cells := by simp [initialState, buildBoardUI]
  cell_values := by
    intro c hc
    have : c ∈ List.replicate 9 "" := hc
    exact Or.inl (List.eq_of_mem_replicate this)
  player := Or.inl rfl
  running_no_line := fun _ => empty_board_no_line
  running_not_full := fun _ => empty_board_not_full
  over_cause := fun h => by cases h
  over_lines := fun h => by cases h
  running_counts := fun _ => Or.inl ⟨rfl, empty_board_counts⟩
  over_counts := fun h => by cases h

theorem Inv_restartGame (s : Game) (h : s.cells.length = 9) : Inv (restartGame s) where
  length_board := rfl
  length_cells := by simp [restartGame, h]
  cell_values := by
    intro c hc
    have : c ∈ List.replicate 9 "" := hc
    exact Or.inl (List.eq_of_mem_replicate this)
  player := Or.inl rfl
  running_no_line := fun _ => empty_board_no_line
  running_not_full := fun _ => empty_board_not_full
  over_cause := fun h => by cases h
  over_lines := fun h => by cases h
  running_counts := fun _ => Or.inl ⟨rfl, empty_board_counts⟩
  over_counts := fun h => by cases h

theorem Inv_afterClick (s : Game) (index : JSNumber) (h : Inv s) :
    Inv (afterClick s index) := by
  by_cases hr : s.gameOver = true ∨ arrayGet s.board index ≠ some ""
  · rw [afterClick_rejected s index hr]; exact h
  · have hg : s.gameOver = false := by
      cases hh : s.gameOver with
      | false => rfl
      | true => exact absurd (Or.inl hh) hr
    have hc : arrayGet s.board index = some "" := by
      by_contra hh; exact hr (Or.inr hh)
    obtain ⟨k, rfl, hk, hlt⟩ := arrayGet_eq_some _ _ _ hc
    obtain ⟨hb, hover, hcp, hst⟩ := afterClick_accepted s _ hg hc
    rw [arraySet_whole_nat] at hb hover hcp hst
    have hkeq : s.board[k] = "" := by
      have := List.getElem?_eq_some_iff.mp hk
      exact this.2
    -- how the counts move
    have hcX : (s.board.set k s.currentPlayer).count "X" =
        s.board.count "X" + (if s.currentPlayer = "X" then 1 else 0) := by
      rw [List.count_set _ _ _ _ hlt, hkeq]; simp
    have hcO : (s.board.set k s.currentPlayer).count "O" =
        s.board.count "O" + (if s.currentPlayer = "O" then 1 else 0) := by
      rw [List.count_set _ _ _ _ hlt, hkeq]; simp
    have hXO : ("X" : String) ≠ "O" := by decide
    refine
      { length_board := by rw [hb]; simpa using h.length_board
        length_cells := by rw [afterClick_cells_length]; exact h.length_cells
        cell_values := ?_
        player := ?_
        running_no_line := ?_
        running_not_full := ?_
        over_cause := ?_
        over_lines := ?_
        running_counts := ?_
        over_counts := ?_ }
    · intro c hcm
      rw [hb] at hcm
      rcases List.mem_or_eq_of_mem_set hcm with hm | hm
      · exact h.cell_values c hm
      · rcases h.player with hp | hp
        · exact Or.inr (Or.inl (hm.trans hp))
        · exact Or.inr (Or.inr (hm.trans hp))
    · rw [hcp]
      rcases h.player with hp | hp <;> split <;> simp [hp]
    · intro hg'
      rw [hover] at hg'
      rw [hb]
      have : (getWinningLine (s.board.set k s.currentPlayer)).isSome = false := by
        cases hw : (getWinningLine (s.board.set k s.currentPlayer)).isSome <;> simp_all
      have hn : getWinningLine (s.board.set k s.currentPlayer) = none := by
        simpa using this
      exact (getWinningLine_eq_none _).mp hn
    · intro hg'
      rw [hover] at hg'
      rw [hb]
      cases hw : isDraw (s.board.set k s.currentPlayer) <;> simp_all
    · intro hg'
      rw [hover] at hg'
      rw [hb]
      rcases Bool.or_eq_true _ _ ▸ hg' with hw | hd
      · exact Or.inl ((getWinningLine_isSome _).mp hw)
      · exact Or.inr hd
    · intro hg' l hl hm
      rw [hover] at hg'
      rw [hb] at hm ⊢
      rw [hcp, if_pos hg']
      by_cases hmem : k = l.1 ∨ k = l.2.1 ∨ k = l.2.2
      · obtain ⟨x, -, h1, h2, h3⟩ := (lineMatches_iff _ _).mp hm
        have hkx : (s.board.set k s.currentPlayer)[k]? = some x := by
          rcases hmem with e | e | e
          · rw [← e] at h1; exact h1
          · rw [← e] at h2; exact h2
          · rw [← e] at h3; exact h3
        rw [List.getElem?_set_self hlt] at hkx
        rw [h1, ← hkx]
      · have hn1 : k ≠ l.1 := fun e => hmem (Or.inl e)
        have hn2 : k ≠ l.2.1 := fun e => hmem (Or.inr (Or.inl e))
        have hn3 : k ≠ l.2.2 := fun e => hmem (Or.inr (Or.inr e))
        rw [lineMatches_set_of_not_mem _ _ _ _ hn1 hn2 hn3] at hm
        rw [h.running_no_line hg l hl] at hm
        cases hm
    · intro hg'
      rw [hover] at hg'
      rw [hb, hcp, hcX, hcO]
      have hng : ¬ ((getWinningLine (s.board.set k s.currentPlayer)).isSome ||
          isDraw (s.board.set k s.currentPlayer)) = true := by simp [hg']
      rw [if_neg hng]
      rcases h.running_counts hg with ⟨hp, hcnt⟩ | ⟨hp, hcnt⟩
      · right; simp [hp, hcnt]
      · left; simp [hp, hcnt]
    · intro hg'
      rw [hover] at hg'
      rw [hb, hcp, hcX, hcO, if_pos hg']
      rcases h.running_counts hg with ⟨hp, hcnt⟩ | ⟨hp, hcnt⟩
      · left; simp [hp, hcnt]
      · right; simp [hp, hcnt]

theorem LegalReach_inv (pageStatus : String) (s : Game) (h : LegalReach pageStatus s) :
    Inv s := by
  induction h with
  | init => exact Inv_initialState pageStatus
  | move s i _ _ _ _ _ ih => exact Inv_afterClick s _ ih

theorem accepted_eq_true (s : Game) (index : JSNumber) :
    accepted s index = true ↔ s.gameOver = false ∧ arrayGet s.board index = some "" := by
  simp [accepted]

theorem accepted_eq_false (s : Game) (index : JSNumber) :
    accepted s index = false ↔ s.gameOver = true ∨ arrayGet s.board index ≠ some "" := by
  cases hg : s.gameOver <;> simp [accepted, hg]

theorem LegalReach_afterClicks (pageStatus : String) (s : Game) (indices : List JSNumber)
    (h : LegalReach pageStatus s) (ha : allAccepted s indices = true) :
    LegalReach pageStatus (afterClicks s indices) := by
  induction indices generalizing s with
  | nil => exact h
  | cons idx rest ih =>
    simp only [allAccepted, Bool.and_eq_true] at ha
    obtain ⟨hg, hc⟩ := (accepted_eq_true s idx).mp ha.1
    obtain ⟨k, rfl, -, hlt⟩ := arrayGet_eq_some _ _ _ hc
    have hlen := (LegalReach_inv pageStatus s h).length_board
    exact ih _ (LegalReach.move s k h hg (by omega) (by omega) hc) ha.2

/-- With the nine buttons in place `highlightWin` finds every button of a line of
`WIN_LINES`, so the handler returns. -/
theorem highlightWin_ok (cells : List CellView) (line : List Nat)
    (h : ∀ idx ∈ line, idx < cells.length) : ∃ cs, highlightWin cells line = .ok cs := by
  induction line generalizing cells with
  | nil => exact ⟨cells, rfl⟩
  | cons idx rest ih =>
    have hlt : idx < cells.length := h idx (List.mem_cons_self _ _)
    have hget : cells[idx]? = some cells[idx] := List.getElem?_eq_getElem hlt
    simp only [highlightWin, hget]
    apply ih
    intro j hj
    simpa using h j (List.mem_cons_of_mem _ hj)

theorem WIN_LINES_lt : ∀ l ∈ WIN_LINES, ∀ idx ∈ [l.1, l.2.1, l.2.2], idx < 9 := by decide

theorem getWinningLine_lt (b : List String) (r : List Nat) (h : getWinningLine b = some r) :
    ∀ idx ∈ r, idx < 9 := by
  obtain ⟨j, l, hj, rfl, -, -⟩ := getWinningLineIn_eq_some b WIN_LINES r h
  have hl : l ∈ WIN_LINES := List.getElem?_mem hj
  exact WIN_LINES_lt l hl

theorem onCellClick_returns (s : Game) (index : JSNumber) (h : s.cells.length = 9) :
    onCellClick s index = .ok (afterClick s index) := by
  unfold afterClick onCellClick
  by_cases hg : s.gameOver = true
  · simp [hg]
  · by_cases hc : arrayGet s.board index ≠ some ""
    · simp [hg, hc]
    · simp only [hg, hc]
      cases hw : getWinningLine (arraySet s.board index s.currentPlayer) with
      | some winLine =>
        simp only []
        have hlt := getWinningLine_lt _ _ hw
        obtain ⟨cs, hcs⟩ := highlightWin_ok s.cells winLine (by rw [h]; exact hlt)
        simp [hcs]
      | none =>
        by_cases hd : isDraw (arraySet s.board index s.currentPlayer) = true
        · simp [hd]
        · simp [hd]

theorem wins_ne_draw (x : String) : x ++ " wins!" ≠ "Draw!" := by
  intro h
  have := congrArg String.length h
  rw [String.length_append] at this
  have h1 : (" wins!" : String).length = 6 := by decide
  have h2 : ("Draw!" : String).length = 5 := by decide
  omega

theorem player_afterClick (s : Game) (index : JSNumber)
    (hp : s.currentPlayer = "X" ∨ s.currentPlayer = "O") :
    (afterClick s index).currentPlayer = "X" ∨ (afterClick s index).currentPlayer = "O" := by
  by_cases ha : accepted s index = true
  · obtain ⟨hg, hc⟩ := (accepted_eq_true s index).mp ha
    rw [(afterClick_accepted s index hg hc).2.2.1]
    rcases hp with hp | hp <;> split <;> simp [hp]
  · have hr := (accepted_eq_false s index).mp (by simpa using ha)
    rw [afterClick_rejected s index hr]; exact hp

theorem player_afterClicks (s : Game) (indices : List JSNumber)
    (hp : s.currentPlayer = "X" ∨ s.currentPlayer = "O") :
    (afterClicks s indices).currentPlayer = "X" ∨
      (afterClicks s indices).currentPlayer = "O" := by
  induction indices generalizing s with
  | nil => exact hp
  | cons i rest ih => exact ih _ (player_afterClick s i hp)

theorem markersPlaced_over (s : Game) (hg : s.gameOver = true) (indices : List JSNumber) :
    markersPlaced s indices = [] := by
  induction indices with
  | nil => rfl
  | cons i rest ih =>
    have ha : accepted s i = false := (accepted_eq_false s i).mpr (Or.inl hg)
    simp only [markersPlaced, ha, afterClick_rejected s i (Or.inl hg)]
    simpa using ih

/-- From a state whose turn is X or O, the markers that later accepted activations
write alternate, the first being the current player. -/
theorem markersPlaced_alternate (s : Game) (indices : List JSNumber)
    (hp : s.currentPlayer = "X" ∨ s.currentPlayer = "O") (k : Nat) (m : Option String)
    (h : (markersPlaced s indices)[k]? = some m) :
    m = some (if k % 2 = 0 then s.currentPlayer
      else if s.currentPlayer = "X" then "O" else "X") := by
  induction indices generalizing s k with
  | nil => simp [markersPlaced] at h
  | cons i rest ih =>
    by_cases ha : accepted s i = true
    · obtain ⟨hg, hc⟩ := (accepted_eq_true s i).mp ha
      obtain ⟨hb, hover, hcp, -⟩ := afterClick_accepted s i hg hc
      obtain ⟨j, rfl, -, hlt⟩ := arrayGet_eq_some _ _ _ hc
      simp only [markersPlaced, ha, if_true] at h
      cases k with
      | zero =>
        simp only [List.getElem?_cons_zero, Option.some.injEq] at h
        rw [← h, hb, arraySet_whole_nat, arrayGet_whole_nat, List.getElem?_set_self hlt]
        simp
      | succ k =>
        simp only [List.getElem?_cons_succ] at h
        cases hgo : (afterClick s (.whole (j : Int))).gameOver with
        | true =>
          rw [markersPlaced_over _ hgo] at h
          simp at h
        | false =>
          have hflip : (afterClick s (.whole (j : Int))).currentPlayer =
              if s.currentPlayer = "X" then "O" else "X" := by
            rw [hover] at hgo
            rw [hcp, hgo]; rfl
          have := ih _ (player_afterClick s _ hp) k h
          rw [this, hflip]
          rcases Nat.mod_two_eq_zero_or_one k with hk | hk
          · have : (k + 1) % 2 = 1 := by omega
            simp [hk, this]
          · have : (k + 1) % 2 = 0 := by omega
            rcases hp with hp | hp <;> simp [hk, this, hp]
    · have hr := (accepted_eq_false s i).mp (by simpa using ha)
      have ha' : accepted s i = false := by simpa using ha
      simp only [markersPlaced, ha', afterClick_rejected s i hr] at h
      exact ih s hp k (by simpa using h)


set_option maxRecDepth 100000 in
theorem lines_inside_le_two : ∀ b0 b1 b2 b3 b4 b5 b6 b7 b8 : Bool,
    List.count true [b0, b1, b2, b3, b4, b5, b6, b7, b8] ≤ 5 →
    (WIN_LINES.filter (lineInside [b0, b1, b2, b3, b4, b5, b6, b7, b8])).length ≤ 2 := by
  decide

theorem count_mask (b : List String) (m : String) :
    (b.map (fun c => c == m)).count true = b.count m := by
  induction b with
  | nil => rfl
  | cons c rest ih =>
    simp only [List.map_cons, List.count_cons, ih]
    by_cases h : c = m <;> simp [h]

theorem mask_getD (b : List String) (m : String) (j : Nat) :
    (((b.map (fun c => c == m))[j]?).getD false = true) ↔ b[j]? = some m := by
  rw [List.getElem?_map]
  cases h : b[j]? with
  | none => simp
  | some x => simp

theorem matchingLines_running (s : Game) (h : Inv s) (hg : s.gameOver = false) :
    matchingLines s.board = [] := by
  unfold matchingLines
  rw [List.filter_eq_nil_iff]
  intro l hl
  rw [h.running_no_line hg l hl]
  simp

/-- Once the game is over every matching line holds the marker of the player who
moved last, which is what `currentPlayer` still is. -/
theorem matchingLines_over_cells (s : Game) (h : Inv s) (hg : s.gameOver = true)
    (l : Nat × Nat × Nat) (hl : l ∈ WIN_LINES) (hm : lineMatches s.board l = true) :
    s.board[l.1]? = some s.currentPlayer ∧ s.board[l.2.1]? = some s.currentPlayer ∧
      s.board[l.2.2]? = some s.currentPlayer := by
  have h1 := h.over_lines hg l hl hm
  obtain ⟨x, -, e1, e2, e3⟩ := (lineMatches_iff _ _).mp hm
  have hx : x = s.currentPlayer := by
    rw [e1] at h1; exact Option.some.inj h1
  subst hx
  exact ⟨e1, e2, e3⟩

theorem matchingLines_length_le_two (s : Game) (h : Inv s) :
    (matchingLines s.board).length ≤ 2 := by
  cases hg : s.gameOver with
  | false => rw [matchingLines_running s h hg]; simp
  | true =>
    have hne : s.currentPlayer ≠ "" := by
      rcases h.player with hp | hp <;> rw [hp] <;> decide
    have hfilter : matchingLines s.board =
        WIN_LINES.filter (lineInside (s.board.map (fun c => c == s.currentPlayer))) := by
      unfold matchingLines
      apply List.filter_congr
      intro l hl
      cases hm : lineMatches s.board l with
      | true =>
        obtain ⟨e1, e2, e3⟩ := matchingLines_over_cells s h hg l hl hm
        symm
        simp only [lineInside, Bool.and_eq_true]
        exact ⟨⟨(mask_getD _ _ _).mpr e1, (mask_getD _ _ _).mpr e2⟩, (mask_getD _ _ _).mpr e3⟩
      | false =>
        symm
        cases hi : lineInside (s.board.map (fun c => c == s.currentPlayer)) l with
        | false => rfl
        | true =>
          simp only [lineInside, Bool.and_eq_true] at hi
          have e1 := (mask_getD _ _ _).mp hi.1.1
          have e2 := (mask_getD _ _ _).mp hi.1.2
          have e3 := (mask_getD _ _ _).mp hi.2
          have := (lineMatches_iff s.board l).mpr ⟨s.currentPlayer, hne, e1, e2, e3⟩
          rw [hm] at this
          cases this
    have hcount : (s.board.map (fun c => c == s.currentPlayer)).count true ≤ 5 := by
      rw [count_mask]
      have h2 := count_two_le_length s.board
      rw [h.length_board] at h2
      rcases h.over_counts hg with ⟨hp, hc⟩ | ⟨hp, hc⟩ <;> rw [hp] <;> omega
    have hlen : (s.board.map (fun c => c == s.currentPlayer)).length = 9 := by
      simpa using h.length_board
    obtain ⟨b0, b1, b2, b3, b4, b5, b6, b7, b8, hmask⟩ := list_of_length_nine _ hlen
    rw [hfilter, hmask]
    rw [hmask] at hcount
    exact lines_inside_le_two b0 b1 b2 b3 b4 b5 b6 b7 b8 hcount

/-- An accepted activation overwrites the status text, so what the text was before
does not matter for the state it leaves. -/
theorem afterClick_statusText_irrelevant (s : Game) (txt : String) (index : JSNumber)
    (ha : accepted s index = true) :
    afterClick { s with statusText := txt } index = afterClick s index := by
  obtain ⟨hg, hc⟩ := (accepted_eq_true s index).mp ha
  unfold afterClick onCellClick
  simp only [hg, hc]
  cases hw : getWinningLine (arraySet s.board index s.currentPlayer) with
  | some winLine =>
    simp only []
    cases hh : highlightWin s.cells winLine <;> rfl
  | none =>
    by_cases hd : isDraw (arraySet s.board index s.currentPlayer) = true
    · simp [hd, render]
    · simp [hd, render]

theorem afterClicks_initialState (pageStatus : String) (index : JSNumber)
    (rest : List JSNumber) (ha : accepted (initialState "") index = true) :
    afterClicks (initialState pageStatus) (index :: rest) =
      afterClicks (initialState "") (index :: rest) := by
  show afterClicks (afterClick (initialState pageStatus) index) rest =
    afterClicks (afterClick (initialState "") index) rest
  have h := afterClick_statusText_irrelevant (initialState "") pageStatus index ha
  have e : ({ initialState "" with statusText := pageStatus } : Game) =
      initialState pageStatus := rfl
  rw [e] at h
  rw [h]

theorem allAccepted_initialState (pageStatus : String) (index : JSNumber)
    (rest : List JSNumber) (ha : accepted (initialState "") index = true) :
    allAccepted (initialState pageStatus) (index :: rest) =
      allAccepted (initialState "") (index :: rest) := by
  have h := afterClick_statusText_irrelevant (initialState "") pageStatus index ha
  have e : ({ initialState "" with statusText := pageStatus } : Game) =
      initialState pageStatus := rfl
  rw [e] at h
  have ha' : accepted (initialState pageStatus) index = accepted (initialState "") index := rfl
  simp only [allAccepted, h, ha']

theorem markersPlaced_initialState (pageStatus : String) (index : JSNumber)
    (rest : List JSNumber) (ha : accepted (initialState "") index = true) :
    markersPlaced (initialState pageStatus) (index :: rest) =
      markersPlaced (initialState "") (index :: rest) := by
  have h := afterClick_statusText_irrelevant (initialState "") pageStatus index ha
  have e : ({ initialState "" with statusText := pageStatus } : Game) =
      initialState pageStatus := rfl
  rw [e] at h
  have ha' : accepted (initialState pageStatus) index = accepted (initialState "") index := rfl
  simp only [markersPlaced, h, ha']

theorem Reach_inv (pageStatus : String) (s : Game) (h : Reach pageStatus s) : Inv s := by
  induction h with
  | init => exact Inv_initialState pageStatus
  | click s index _ ih => exact Inv_afterClick s index ih
  | restart s _ ih => exact Inv_restartGame s ih.length_cells

theorem Reach_afterClicks (pageStatus : String) (s : Game) (indices : List JSNumber)
    (h : Reach pageStatus s) : Reach pageStatus (afterClicks s indices) := by
  induction indices generalizing s with
  | nil => exact h
  | cons i rest ih => exact ih _ (Reach.click s i h)

/-- After `render()` no button carries the class `win`. -/
theorem render_win (s : Game) : ∀ c ∈ (render s).cells, c.win = false := by
  intro c hc
  simp only [render, List.mem_mapIdx] at hc
  obtain ⟨i, hi, rfl⟩ := hc
  rfl

theorem getItem_setItem (store : List (String × String)) (key value : String) :
    getItem (setItem store key value) key = some value := by
  simp [getItem, setItem, List.lookup]

theorem jsOr_of_ne_empty (v d : String) (h : v ≠ "") : jsOr (some v) d = v := by
  simp [jsOr, h]

/-- Writing a non-empty value and reading it back with a default gives the value. -/
theorem read_after_write (store : List (String × String)) (key v d : String) (h : v ≠ "") :
    jsOr (getItem (setItem store key v) key) d = v := by
  rw [getItem_setItem, jsOr_of_ne_empty v d h]

theorem palette_name_ne_empty (v : String) (h : v ∈ RAINBOW.map Prod.fst) : v ≠ "" := by
  intro e
  subst e
  revert h
  decide

/-- What the colour functions do for a name that is no property of `Object.prototype`:
the own entry for a palette name, blue for every other name. -/
theorem applyColor_of_not_inherited (colorName : String)
    (h : colorName ∉ objectPrototypeKeys) :
    (∀ e, RAINBOW.lookup colorName = some e →
      applyBoardColor colorName = some e.tint ∧ applyMarkerColor colorName = some e.marker) ∧
    (RAINBOW.lookup colorName = none →
      applyBoardColor colorName = some "rgba(59, 130, 246, 0.55)" ∧
      applyMarkerColor colorName = some "#3b82f6") := by
  constructor
  · intro e he
    simp [applyBoardColor, applyMarkerColor, rainbowGet, he, orBlue, PropertyValue.tint,
      PropertyValue.marker]
  · intro hn
    have hr : rainbowGet colorName = .undefined := by simp [rainbowGet, hn, h]
    rw [applyBoardColor, applyMarkerColor, hr]
    decide

theorem applyTheme_dataTheme (theme : Option String) (pg : Page) :
    (applyTheme theme pg).dataTheme =
      some (if theme = some "light" then "light" else "dark") := by
  unfold applyTheme
  cases hb : pg.themeToggleBtn <;> simp [hb]

theorem applyTheme_localStorage (theme : Option String) (pg : Page) :
    (applyTheme theme pg).localStorage = pg.localStorage := by
  unfold applyTheme
  cases hb : pg.themeToggleBtn <;> simp [hb]

theorem applyTheme_themeToggleBtn (theme : Option String) (pg : Page) :
    (applyTheme theme pg).themeToggleBtn =
      pg.themeToggleBtn.map (fun _ =>
        { textContent := if theme = some "light" then "Dark mode" else "Light mode"
          ariaPressed := if theme = some "light" then "true" else "false" }) := by
  unfold applyTheme
  cases hb : pg.themeToggleBtn with
  | none => simp [hb]
  | some btn =>
    by_cases h : theme = some "light"
    · simp [hb, h]; rfl
    · simp [hb, h]; rfl

/-! ## The claims -/

/-- C1: an activation at an index in 0..8 while `gameOver` is true, or on a cell that
does not read as the empty string, returns and leaves the whole state (board,
currentPlayer, gameOver, status text, buttons) as it was; from a finished game no
sequence of activations changes anything, and `restartGame` clears `gameOver`. -/
theorem C1_rejected_activation_is_noop (s : Game) (i : Int) (_hlo : 0 ≤ i) (_hhi : i ≤ 8)
    (h : s.gameOver = true ∨ arrayGet s.board (.whole i) ≠ some "") :
    onCellClick s (.whole i) = .ok s ∧
    (s.gameOver = true → ∀ indices : List JSNumber, afterClicks s indices = s) ∧
    (restartGame s).gameOver = false :=
  ⟨onCellClick_rejected s _ h, fun hg indices => afterClicks_gameOver s hg indices, rfl⟩

/-- C1, witness: after X has taken cell 0, a second activation of cell 0 is a no-op. -/
theorem C1_rejected_activation_is_noop_witness :
    (afterClick (initialState "") (.whole 0)).gameOver = false ∧
    arrayGet (afterClick (initialState "") (.whole 0)).board (.whole 0) = some "X" ∧
    onCellClick (afterClick (initialState "") (.whole 0)) (.whole 0) =
      .ok (afterClick (initialState "") (.whole 0)) :=
  ⟨by decide, by decide,
    (C1_rejected_activation_is_noop (afterClick (initialState "") (.whole 0)) 0
      (by decide) (by decide) (Or.inr (by decide))).1⟩

/-- C2: on a 9-cell board an activation at an index outside 0..8 (a whole number
below 0 or above 8, or a number that is not whole) returns normally with the state
unchanged, and the board still has 9 cells. -/
theorem C2_out_of_range_is_noop (s : Game) (index : JSNumber) (hlen : s.board.length = 9)
    (hout : OutOfRange index) :
    onCellClick s index = .ok s ∧ (afterClick s index).board.length = 9 := by
  have hget : arrayGet s.board index ≠ some "" := by
    intro h
    obtain ⟨j, rfl, -, hj⟩ := arrayGet_eq_some _ _ _ h
    simp only [OutOfRange] at hout
    omega
  have h := onCellClick_rejected s index (Or.inr hget)
  refine ⟨h, ?_⟩
  simp [afterClick, h, hlen]

/-- C2, witness: indices 9, -1 and a non-whole number on the freshly loaded page. -/
theorem C2_out_of_range_is_noop_witness :
    onCellClick (initialState "") (.whole 9) = .ok (initialState "") ∧
    onCellClick (initialState "") (.whole (-1)) = .ok (initialState "") ∧
    onCellClick (initialState "") .nonWhole = .ok (initialState "") :=
  ⟨(C2_out_of_range_is_noop (initialState "") (.whole 9) (by decide) (Or.inr (by decide))).1,
   (C2_out_of_range_is_noop (initialState "") (.whole (-1)) (by decide) (Or.inl (by decide))).1,
   (C2_out_of_range_is_noop (initialState "") .nonWhole (by decide) trivial).1⟩

/-- C3, the claim as written fails: after X@0 O@3 X@1 O@4 X@5 O@6 X@8 O@7, all legal,
the legal move X@2 gives X the three cells of the line (2,5,8), and the line reported
is [0,1,2]. -/
theorem C3_reported_line_counterexample :
    LegalReach "" (afterClicks (initialState "")
      [.whole 0, .whole 3, .whole 1, .whole 4, .whole 5, .whole 6, .whole 8, .whole 7]) ∧
    (afterClicks (initialState "")
      [.whole 0, .whole 3, .whole 1, .whole 4, .whole 5, .whole 6, .whole 8, .whole 7]).gameOver
      = false ∧
    (afterClicks (initialState "")
      [.whole 0, .whole 3, .whole 1, .whole 4, .whole 5, .whole 6, .whole 8, .whole 7]).currentPlayer
      = "X" ∧
    arrayGet (afterClicks (initialState "")
      [.whole 0, .whole 3, .whole 1, .whole 4, .whole 5, .whole 6, .whole 8, .whole 7]).board
      (.whole 2) = some "" ∧
    (2, 5, 8) ∈ WIN_LINES ∧
    (afterClicks (initialState "")
      [.whole 0, .whole 3, .whole 1, .whole 4, .whole 5, .whole 6, .whole 8, .whole 7,
       .whole 2]).board[2]? = some "X" ∧
    (afterClicks (initialState "")
      [.whole 0, .whole 3, .whole 1, .whole 4, .whole 5, .whole 6, .whole 8, .whole 7,
       .whole 2]).board[5]? = some "X" ∧
    (afterClicks (initialState "")
      [.whole 0, .whole 3, .whole 1, .whole 4, .whole 5, .whole 6, .whole 8, .whole 7,
       .whole 2]).board[8]? = some "X" ∧
    getWinningLine (afterClicks (initialState "")
      [.whole 0, .whole 3, .whole 1, .whole 4, .whole 5, .whole 6, .whole 8, .whole 7,
       .whole 2]).board = some [0, 1, 2] ∧
    getWinningLine (afterClicks (initialState "")
      [.whole 0, .whole 3, .whole 1, .whole 4, .whole 5, .whole 6, .whole 8, .whole 7,
       .whole 2]).board ≠ some [2, 5, 8] :=
  ⟨LegalReach_afterClicks "" _ _ LegalReach.init (by decide), by decide, by decide, by decide,
    by decide, by decide, by decide, by decide, by decide, by decide⟩

/-- C3, amended: in a state reached by legal play with the game not over, a legal
move after which the mover holds the three cells of the `k`-th line of `WIN_LINES`
makes the handler return with `gameOver` true and status `<mover> wins!`; the line
`getWinningLine` reports is the first line of `WIN_LINES`, at position `j ≤ k`, that
matches, all three of its cells hold the mover, and it is the `k`-th line itself
whenever no earlier line matches. -/
theorem C3_completed_line_wins (pageStatus : String) (s : Game) (i : Int) (k : Nat)
    (l : Nat × Nat × Nat) (hreach : LegalReach pageStatus s) (hg : s.gameOver = false)
    (_hlo : 0 ≤ i) (_hhi : i ≤ 8) (hc : arrayGet s.board (.whole i) = some "")
    (hl : WIN_LINES[k]? = some l)
    (h1 : (afterClick s (.whole i)).board[l.1]? = some s.currentPlayer)
    (h2 : (afterClick s (.whole i)).board[l.2.1]? = some s.currentPlayer)
    (h3 : (afterClick s (.whole i)).board[l.2.2]? = some s.currentPlayer) :
    onCellClick s (.whole i) = .ok (afterClick s (.whole i)) ∧
    (afterClick s (.whole i)).gameOver = true ∧
    (afterClick s (.whole i)).statusText = s.currentPlayer ++ " wins!" ∧
    (∃ j l', j ≤ k ∧ WIN_LINES[j]? = some l' ∧
      getWinningLine (afterClick s (.whole i)).board = some [l'.1, l'.2.1, l'.2.2] ∧
      (afterClick s (.whole i)).board[l'.1]? = some s.currentPlayer ∧
      (afterClick s (.whole i)).board[l'.2.1]? = some s.currentPlayer ∧
      (afterClick s (.whole i)).board[l'.2.2]? = some s.currentPlayer ∧
      ∀ (m : Nat) (lm : Nat × Nat × Nat), m < j → WIN_LINES[m]? = some lm →
        lineMatches (afterClick s (.whole i)).board lm = false) ∧
    ((∀ (m : Nat) (lm : Nat × Nat × Nat), m < k → WIN_LINES[m]? = some lm →
        lineMatches (afterClick s (.whole i)).board lm = false) →
      getWinningLine (afterClick s (.whole i)).board = some [l.1, l.2.1, l.2.2]) := by
  have hinv := LegalReach_inv pageStatus s hreach
  have hinv' := Inv_afterClick s (.whole i) hinv
  obtain ⟨hb, hover, hcp, hst⟩ := afterClick_accepted s _ hg hc
  have hne : s.currentPlayer ≠ "" := by
    rcases hinv.player with hp | hp <;> rw [hp] <;> decide
  have hmatch : lineMatches (afterClick s (.whole i)).board l = true :=
    (lineMatches_iff _ _).mpr ⟨s.currentPlayer, hne, h1, h2, h3⟩
  have hlm : l ∈ WIN_LINES := List.getElem?_mem hl
  have hsome : (getWinningLine (afterClick s (.whole i)).board).isSome = true :=
    (getWinningLine_isSome _).mpr ⟨l, hlm, hmatch⟩
  rw [hb] at hsome
  have hgo : (afterClick s (.whole i)).gameOver = true := by rw [hover, hsome]; rfl
  have hcp' : (afterClick s (.whole i)).currentPlayer = s.currentPlayer := by
    rw [hcp, hsome]; rfl
  obtain ⟨r, hr⟩ := Option.isSome_iff_exists.mp hsome
  rw [← hb] at hr
  obtain ⟨j, l', hj, hrl, hm', hbefore⟩ := getWinningLineIn_eq_some _ WIN_LINES r hr
  have hjk : j ≤ k := by
    by_contra hlt
    have := hbefore k l (by omega) hl
    rw [hmatch] at this
    cases this
  have hcells := hinv'.over_lines hgo l' (List.getElem?_mem hj) hm'
  rw [hcp'] at hcells
  obtain ⟨x, -, e1, e2, e3⟩ := (lineMatches_iff _ _).mp hm'
  have hx : x = s.currentPlayer := by
    rw [e1] at hcells; exact Option.some.inj hcells
  subst hx
  refine ⟨onCellClick_returns s _ hinv.length_cells, hgo, ?_, ?_, ?_⟩
  · rw [hst, hsome]; rfl
  · exact ⟨j, l', hjk, hj, hrl ▸ hr, e1, e2, e3, hbefore⟩
  · intro hnone
    have hjk' : j = k := by
      by_contra hne'
      have := hnone j l' (by omega) hj
      rw [hm'] at this
      cases this
    subst hjk'
    rw [hl] at hj
    cases hj
    exact hrl ▸ hr

/-- C3, witness: X@0 O@4 X@1 O@5 and then X@2 completes the first row. -/
theorem C3_completed_line_wins_witness :
    (afterClick (afterClicks (initialState "")
      [.whole 0, .whole 4, .whole 1, .whole 5]) (.whole 2)).gameOver = true ∧
    (afterClick (afterClicks (initialState "")
      [.whole 0, .whole 4, .whole 1, .whole 5]) (.whole 2)).statusText = "X wins!" ∧
    getWinningLine (afterClick (afterClicks (initialState "")
      [.whole 0, .whole 4, .whole 1, .whole 5]) (.whole 2)).board = some [0, 1, 2] :=
  have h := C3_completed_line_wins ""
    (afterClicks (initialState "") [.whole 0, .whole 4, .whole 1, .whole 5]) 2 0 (0, 1, 2)
    (LegalReach_afterClicks "" _ _ LegalReach.init (by decide)) (by decide) (by decide)
    (by decide) (by decide) (by decide) (by decide) (by decide) (by decide)
  ⟨h.2.1, h.2.2.1, h.2.2.2.2 (fun m lm hm => absurd hm (Nat.not_lt_zero m))⟩

/-- C4: for an accepted move from a state with `gameOver` false that leaves every
cell non-empty: if no line of `WIN_LINES` has its three cells holding one and the same
non-empty string, `gameOver` is true and the status is `Draw!`, which is no
`<player> wins!` text; if some line of `WIN_LINES` has, `gameOver` is true and the
status is `<mover> wins!`, which is not `Draw!`. -/
theorem C4_full_board_draw_or_win (s : Game) (index : JSNumber) (hg : s.gameOver = false)
    (hc : arrayGet s.board index = some "")
    (hfull : ∀ c ∈ (afterClick s index).board, c ≠ "") :
    ((∀ l ∈ WIN_LINES, ¬ ∃ x, x ≠ "" ∧
        (afterClick s index).board[l.1]? = some x ∧
        (afterClick s index).board[l.2.1]? = some x ∧
        (afterClick s index).board[l.2.2]? = some x) →
      (afterClick s index).gameOver = true ∧
      (afterClick s index).statusText = "Draw!" ∧
      ∀ x : String, (afterClick s index).statusText ≠ x ++ " wins!") ∧
    ((∃ l ∈ WIN_LINES, ∃ x, x ≠ "" ∧
        (afterClick s index).board[l.1]? = some x ∧
        (afterClick s index).board[l.2.1]? = some x ∧
        (afterClick s index).board[l.2.2]? = some x) →
      (afterClick s index).gameOver = true ∧
      (afterClick s index).statusText = s.currentPlayer ++ " wins!" ∧
      (afterClick s index).statusText ≠ "Draw!") := by
  obtain ⟨hb, hover, -, hst⟩ := afterClick_accepted s index hg hc
  have hd : isDraw (arraySet s.board index s.currentPlayer) = true := by
    rw [← hb]; exact (isDraw_eq_true _).mpr hfull
  constructor
  · intro hnone
    have hn : getWinningLine (arraySet s.board index s.currentPlayer) = none := by
      rw [← hb, getWinningLine_eq_none]
      intro l hl
      cases hm : lineMatches (afterClick s index).board l with
      | false => rfl
      | true => exact absurd ((lineMatches_iff _ l).mp hm) (hnone l hl)
    have hs : (afterClick s index).statusText = "Draw!" := by rw [hst, hn, hd]; rfl
    refine ⟨by rw [hover, hn, hd]; rfl, hs, ?_⟩
    intro x hx
    rw [hs] at hx
    exact wins_ne_draw x hx.symm
  · rintro ⟨l, hl, hex⟩
    have hw : (getWinningLine (arraySet s.board index s.currentPlayer)).isSome = true := by
      rw [← hb]
      exact (getWinningLine_isSome _).mpr ⟨l, hl, (lineMatches_iff _ l).mpr hex⟩
    have hs : (afterClick s index).statusText = s.currentPlayer ++ " wins!" := by
      rw [hst, hw]; rfl
    refine ⟨by rw [hover, hw]; rfl, hs, ?_⟩
    rw [hs]
    exact wins_ne_draw _

/-- C4, witness: X@0 O@1 X@2 O@4 X@3 O@5 X@7 O@6 and then X@8 fills the board with no
line and ends in `Draw!`; X@0 O@1 X@2 O@3 X@4 O@6 X@5 O@7 and then X@8 fills the board
with X on the line (2,5,8) and ends in `X wins!`. -/
theorem C4_full_board_draw_or_win_witness :
    ((afterClick (afterClicks (initialState "")
      [.whole 0, .whole 1, .whole 2, .whole 4, .whole 3, .whole 5, .whole 7, .whole 6])
      (.whole 8)).gameOver = true ∧
    (afterClick (afterClicks (initialState "")
      [.whole 0, .whole 1, .whole 2, .whole 4, .whole 3, .whole 5, .whole 7, .whole 6])
      (.whole 8)).statusText = "Draw!") ∧
    ((afterClick (afterClicks (initialState "")
      [.whole 0, .whole 1, .whole 2, .whole 3, .whole 4, .whole 6, .whole 5, .whole 7])
      (.whole 8)).gameOver = true ∧
    (afterClick (afterClicks (initialState "")
      [.whole 0, .whole 1, .whole 2, .whole 3, .whole 4, .whole 6, .whole 5, .whole 7])
      (.whole 8)).statusText = "X wins!" ∧
    (afterClick (afterClicks (initialState "")
      [.whole 0, .whole 1, .whole 2, .whole 3, .whole 4, .whole 6, .whole 5, .whole 7])
      (.whole 8)).statusText ≠ "Draw!") := by
  have hnoline : ∀ l ∈ WIN_LINES, lineMatches (afterClick (afterClicks (initialState "")
      [.whole 0, .whole 1, .whole 2, .whole 4, .whole 3, .whole 5, .whole 7, .whole 6])
      (.whole 8)).board l = false := by decide
  have hdraw := (C4_full_board_draw_or_win
    (afterClicks (initialState "")
      [.whole 0, .whole 1, .whole 2, .whole 4, .whole 3, .whole 5, .whole 7, .whole 6])
    (.whole 8) (by decide) (by decide) (by decide)).1
    (fun l hl hex => by
      have hm := (lineMatches_iff _ l).mpr hex
      rw [hnoline l hl] at hm
      cases hm)
  have hwon := (C4_full_board_draw_or_win
    (afterClicks (initialState "")
      [.whole 0, .whole 1, .whole 2, .whole 3, .whole 4, .whole 6, .whole 5, .whole 7])
    (.whole 8) (by decide) (by decide) (by decide)).2
    ⟨(2, 5, 8), by decide, "X", by decide, by decide, by decide, by decide⟩
  exact ⟨⟨hdraw.1, hdraw.2.1⟩, hwon⟩

/-- C5: from the loaded page or right after `restartGame`, the markers written by the
accepted activations of any sequence are X, O, X, O, ... (the `k`-th is X for even
`k`, O for odd `k`); after any such sequence a rejected activation keeps
`currentPlayer`, an accepted one that does not end the game flips it between X and
O, and an accepted one that ends the game keeps it. -/
theorem C5_turns_alternate (s0 : Game)
    (h0 : (∃ pageStatus, s0 = initialState pageStatus) ∨ (∃ s, s0 = restartGame s))
    (indices : List JSNumber) (i : JSNumber) :
    (∀ (k : Nat) (m : Option String), (markersPlaced s0 indices)[k]? = some m →
      m = some (if k % 2 = 0 then "X" else "O")) ∧
    (accepted (afterClicks s0 indices) i = false →
      (afterClick (afterClicks s0 indices) i).currentPlayer =
        (afterClicks s0 indices).currentPlayer) ∧
    (accepted (afterClicks s0 indices) i = true →
      (afterClick (afterClicks s0 indices) i).gameOver = false →
        ((afterClicks s0 indices).currentPlayer = "X" ∧
          (afterClick (afterClicks s0 indices) i).currentPlayer = "O") ∨
        ((afterClicks s0 indices).currentPlayer = "O" ∧
          (afterClick (afterClicks s0 indices) i).currentPlayer = "X")) ∧
    (accepted (afterClicks s0 indices) i = true →
      (afterClick (afterClicks s0 indices) i).gameOver = true →
        (afterClick (afterClicks s0 indices) i).currentPlayer =
          (afterClicks s0 indices).currentPlayer) := by
  have hX : s0.currentPlayer = "X" := by
    rcases h0 with ⟨p, rfl⟩ | ⟨s, rfl⟩ <;> rfl
  have hp := player_afterClicks s0 indices (Or.inl hX)
  refine ⟨?_, ?_, ?_, ?_⟩
  · intro k m hm
    have := markersPlaced_alternate s0 indices (Or.inl hX) k m hm
    rw [this, hX]; simp
  · intro ha
    rw [afterClick_rejected _ i ((accepted_eq_false _ i).mp ha)]
  · intro ha hgo
    obtain ⟨hg, hc⟩ := (accepted_eq_true _ i).mp ha
    obtain ⟨-, hover, hcp, -⟩ := afterClick_accepted _ i hg hc
    rw [hover] at hgo
    rw [hcp, hgo]
    rcases hp with hp | hp
    · left; simp [hp]
    · right; simp [hp]
  · intro ha hgo
    obtain ⟨hg, hc⟩ := (accepted_eq_true _ i).mp ha
    obtain ⟨-, hover, hcp, -⟩ := afterClick_accepted _ i hg hc
    rw [hover] at hgo
    rw [hcp, hgo]; rfl

/-- C5, witness: a sequence with repeated, out-of-range and non-whole indices places
X, O, X, O. -/
theorem C5_turns_alternate_witness :
    markersPlaced (initialState "")
      [.whole 4, .whole 4, .whole 9, .whole 0, .nonWhole, .whole 8, .whole 0, .whole 2] =
      [some "X", some "O", some "X", some "O"] ∧
    ∀ (k : Nat) (m : Option String),
      (markersPlaced (initialState "")
        [.whole 4, .whole 4, .whole 9, .whole 0, .nonWhole, .whole 8, .whole 0, .whole 2])[k]? =
        some m → m = some (if k % 2 = 0 then "X" else "O") :=
  ⟨by decide,
   (C5_turns_alternate (initialState "") (Or.inl ⟨"", rfl⟩)
      [.whole 4, .whole 4, .whole 9, .whole 0, .nonWhole, .whole 8, .whole 0, .whole 2]
      (.whole 1)).1⟩

/-- C6: from any state, a cell that holds a non-empty string holds that same string
after every sequence of activations, whatever the indices. -/
theorem C6_markers_never_overwritten (s : Game) (indices : List JSNumber) (j : Nat)
    (x : String) (hx : s.board[j]? = some x) (hne : x ≠ "") :
    (afterClicks s indices).board[j]? = some x := by
  induction indices generalizing s with
  | nil => exact hx
  | cons i rest ih =>
    exact ih (afterClick s i) (afterClick_keeps_marker s i j x hx hne)

/-- C6, witness: cell 0 keeps its X through further activations, cell 0 included. -/
theorem C6_markers_never_overwritten_witness :
    (afterClicks (afterClick (initialState "") (.whole 0))
      [.whole 0, .whole 4, .whole 0, .nonWhole, .whole 12]).board[0]? = some "X" :=
  C6_markers_never_overwritten (afterClick (initialState "") (.whole 0))
    [.whole 0, .whole 4, .whole 0, .nonWhole, .whole 12] 0 "X" (by decide) (by decide)

/-- C7: with `gameOver` false and an index in 0..8 whose cell is empty, after the
activation the board holds the pre-move `currentPlayer` at that index, every other
position reads as before, the length is the same, and (the marker being non-empty)
the cell at the index has changed. -/
theorem C7_accepted_move_writes_one_cell (s : Game) (i : Int) (hg : s.gameOver = false)
    (_hlo : 0 ≤ i) (_hhi : i ≤ 8) (hc : arrayGet s.board (.whole i) = some "") :
    (afterClick s (.whole i)).board[i.toNat]? = some s.currentPlayer ∧
    (∀ j : Nat, j ≠ i.toNat → (afterClick s (.whole i)).board[j]? = s.board[j]?) ∧
    (afterClick s (.whole i)).board.length = s.board.length ∧
    (s.currentPlayer ≠ "" → (afterClick s (.whole i)).board[i.toNat]? ≠ s.board[i.toNat]?) := by
  obtain ⟨k, hk, hget, hlt⟩ := arrayGet_eq_some _ _ _ hc
  have hik : i = (k : Int) := by injection hk
  subst hik
  rw [(afterClick_accepted s _ hg hc).1, arraySet_whole_nat]
  simp only [Int.toNat_ofNat]
  refine ⟨?_, ?_, ?_, ?_⟩
  · exact List.getElem?_set_self hlt
  · intro j hj; exact List.getElem?_set_ne (Ne.symm hj)
  · simp
  · intro hcp
    rw [List.getElem?_set_self hlt, hget]
    intro h
    exact hcp (Option.some.inj h)

/-- C7, witness: the first move at cell 4 writes X there and nothing elsewhere. -/
theorem C7_accepted_move_writes_one_cell_witness :
    (afterClick (initialState "") (.whole 4)).board[4]? = some "X" ∧
    (∀ j : Nat, j ≠ 4 → (afterClick (initialState "") (.whole 4)).board[j]? =
      (initialState "").board[j]?) :=
  ⟨(C7_accepted_move_writes_one_cell (initialState "") 4 (by decide) (by decide) (by decide)
      (by decide)).1,
   (C7_accepted_move_writes_one_cell (initialState "") 4 (by decide) (by decide) (by decide)
      (by decide)).2.1⟩

/-- C8: from every state `restartGame` leaves 9 empty cells, `currentPlayer` X,
`gameOver` false and the status text `X’s turn`; these are the values of the loaded
page, and with the nine buttons in place the whole state is the initial one with
that status text. -/
theorem C8_restart_yields_initial_state (s : Game) :
    (restartGame s).board = List.replicate 9 "" ∧
    (restartGame s).currentPlayer = "X" ∧
    (restartGame s).gameOver = false ∧
    (restartGame s).statusText = "X’s turn" ∧
    (∀ pageStatus : String,
      (restartGame s).board = (initialState pageStatus).board ∧
      (restartGame s).currentPlayer = (initialState pageStatus).currentPlayer ∧
      (restartGame s).gameOver = (initialState pageStatus).gameOver) ∧
    (s.cells.length = 9 → restartGame s = initialState "X’s turn") := by
  refine ⟨rfl, rfl, rfl, rfl, fun _ => ⟨rfl, rfl, rfl⟩, ?_⟩
  intro h
  obtain ⟨a0, a1, a2, a3, a4, a5, a6, a7, a8, hc⟩ := list_of_length_nine s.cells h
  simp [restartGame, initialState, render, buildBoardUI, hc, renderCell, List.mapIdx_cons]

/-- C8, witness: restarting a game X has won gives the initial state. -/
theorem C8_restart_yields_initial_state_witness :
    restartGame (afterClicks (initialState "") [.whole 0, .whole 4, .whole 1, .whole 5, .whole 2]) =
      initialState "X’s turn" :=
  (C8_restart_yields_initial_state
    (afterClicks (initialState "") [.whole 0, .whole 4, .whole 1, .whole 5, .whole 2])).2.2.2.2.2
    (by decide)

/-- C9, the claim as written fails: after X@0 O@1 X@8 O@3 X@2 O@5 X@6 O@7 X@4, all
legal, both diagonals match. -/
theorem C9_two_lines_counterexample :
    ¬ (∀ (pageStatus : String) (s : Game), LegalReach pageStatus s →
        (matchingLines s.board).length ≤ 1) := by
  intro h
  have h2 := h "" (afterClicks (initialState "")
    [.whole 0, .whole 1, .whole 8, .whole 3, .whole 2, .whole 5, .whole 6, .whole 7, .whole 4])
    (LegalReach_afterClicks "" _ _ LegalReach.init (by decide))
  revert h2
  decide

/-- C9, amended: in every state reached by legal play at most two lines of `WIN_LINES`
match; none matches while `gameOver` is false, and every matching line holds
`currentPlayer`, the player who moved last, in all three cells. -/
theorem C9_at_most_two_lines (pageStatus : String) (s : Game)
    (hreach : LegalReach pageStatus s) :
    (matchingLines s.board).length ≤ 2 ∧
    (s.gameOver = false → matchingLines s.board = []) ∧
    (∀ l ∈ matchingLines s.board,
      s.board[l.1]? = some s.currentPlayer ∧ s.board[l.2.1]? = some s.currentPlayer ∧
        s.board[l.2.2]? = some s.currentPlayer) := by
  have h := LegalReach_inv pageStatus s hreach
  refine ⟨matchingLines_length_le_two s h, matchingLines_running s h, ?_⟩
  intro l hl
  cases hg : s.gameOver with
  | false => rw [matchingLines_running s h hg] at hl; cases hl
  | true =>
    have hl' := List.mem_filter.mp hl
    exact matchingLines_over_cells s h hg l hl'.1 hl'.2

/-- C9, witness: after X@0 O@3 X@1 O@4 X@5 O@6 X@8 O@7 X@2 exactly the lines (0,1,2)
and (2,5,8) match. -/
theorem C9_at_most_two_lines_witness :
    matchingLines (afterClicks (initialState "")
      [.whole 0, .whole 3, .whole 1, .whole 4, .whole 5, .whole 6, .whole 8, .whole 7,
       .whole 2]).board = [(0, 1, 2), (2, 5, 8)] ∧
    (matchingLines (afterClicks (initialState "")
      [.whole 0, .whole 3, .whole 1, .whole 4, .whole 5, .whole 6, .whole 8, .whole 7,
       .whole 2]).board).length ≤ 2 :=
  ⟨by decide,
   (C9_at_most_two_lines "" _ (LegalReach_afterClicks "" (initialState "")
      [.whole 0, .whole 3, .whole 1, .whole 4, .whole 5, .whole 6, .whole 8, .whole 7,
       .whole 2] LegalReach.init (by decide))).1⟩

/-- C10, the claim as written fails: the nine activations are accepted, but the last
one completes a line and the status is not `Draw!`. -/
theorem C10_scenario_counterexample :
    ¬ (allAccepted (initialState "")
        [.whole 0, .whole 1, .whole 2, .whole 3, .whole 4, .whole 6, .whole 5, .whole 7,
         .whole 8] = true ∧
      getWinningLine (afterClicks (initialState "")
        [.whole 0, .whole 1, .whole 2, .whole 3, .whole 4, .whole 6, .whole 5, .whole 7,
         .whole 8]).board = none ∧
      (afterClicks (initialState "")
        [.whole 0, .whole 1, .whole 2, .whole 3, .whole 4, .whole 6, .whole 5, .whole 7,
         .whole 8]).statusText = "Draw!") := by
  decide

/-- C10, amended: from the loaded page the activations 0, 1, 2, 3, 4, 6, 5, 7, 8 are
all accepted and place X, O, X, O, X, O, X, O, X; no line matches after the first
eight; the ninth, X@8, completes the lines (2,5,8) and (0,4,8), `getWinningLine`
reports [2,5,8], `gameOver` is true and the status is `X wins!`. -/
theorem C10_scenario_ends_in_win (pageStatus : String) :
    allAccepted (initialState pageStatus)
      [.whole 0, .whole 1, .whole 2, .whole 3, .whole 4, .whole 6, .whole 5, .whole 7,
       .whole 8] = true ∧
    markersPlaced (initialState pageStatus)
      [.whole 0, .whole 1, .whole 2, .whole 3, .whole 4, .whole 6, .whole 5, .whole 7,
       .whole 8] =
      [some "X", some "O", some "X", some "O", some "X", some "O", some "X", some "O",
       some "X"] ∧
    getWinningLine (afterClicks (initialState pageStatus)
      [.whole 0, .whole 1, .whole 2, .whole 3, .whole 4, .whole 6, .whole 5,
       .whole 7]).board = none ∧
    (afterClicks (initialState pageStatus)
      [.whole 0, .whole 1, .whole 2, .whole 3, .whole 4, .whole 6, .whole 5,
       .whole 7]).gameOver = false ∧
    (afterClicks (initialState pageStatus)
      [.whole 0, .whole 1, .whole 2, .whole 3, .whole 4, .whole 6, .whole 5, .whole 7,
       .whole 8]).board = ["X", "O", "X", "O", "X", "X", "O", "O", "X"] ∧
    matchingLines (afterClicks (initialState pageStatus)
      [.whole 0, .whole 1, .whole 2, .whole 3, .whole 4, .whole 6, .whole 5, .whole 7,
       .whole 8]).board = [(2, 5, 8), (0, 4, 8)] ∧
    getWinningLine (afterClicks (initialState pageStatus)
      [.whole 0, .whole 1, .whole 2, .whole 3, .whole 4, .whole 6, .whole 5, .whole 7,
       .whole 8]).board = some [2, 5, 8] ∧
    (afterClicks (initialState pageStatus)
      [.whole 0, .whole 1, .whole 2, .whole 3, .whole 4, .whole 6, .whole 5, .whole 7,
       .whole 8]).gameOver = true ∧
    (afterClicks (initialState pageStatus)
      [.whole 0, .whole 1, .whole 2, .whole 3, .whole 4, .whole 6, .whole 5, .whole 7,
       .whole 8]).statusText = "X wins!" := by
  have ha : accepted (initialState "") (.whole 0) = true := by decide
  rw [allAccepted_initialState pageStatus _ _ ha, markersPlaced_initialState pageStatus _ _ ha,
    afterClicks_initialState pageStatus _ _ ha, afterClicks_initialState pageStatus _ _ ha]
  decide

/-- C11: from the loaded page the activations 0, 4, 1, 5, 2 are all accepted and end
the game won by X on the first row: `gameOver` is true, the status is `X wins!`,
`currentPlayer` is still X and `getWinningLine` returns [0,1,2]. -/
theorem C11_scenario_x_wins_top_row (pageStatus : String) :
    allAccepted (initialState pageStatus)
      [.whole 0, .whole 4, .whole 1, .whole 5, .whole 2] = true ∧
    (afterClicks (initialState pageStatus)
      [.whole 0, .whole 4, .whole 1, .whole 5, .whole 2]).board =
      ["X", "X", "X", "", "O", "O", "", "", ""] ∧
    (afterClicks (initialState pageStatus)
      [.whole 0, .whole 4, .whole 1, .whole 5, .whole 2]).gameOver = true ∧
    (afterClicks (initialState pageStatus)
      [.whole 0, .whole 4, .whole 1, .whole 5, .whole 2]).statusText = "X wins!" ∧
    (afterClicks (initialState pageStatus)
      [.whole 0, .whole 4, .whole 1, .whole 5, .whole 2]).currentPlayer = "X" ∧
    getWinningLine (afterClicks (initialState pageStatus)
      [.whole 0, .whole 4, .whole 1, .whole 5, .whole 2]).board = some [0, 1, 2] := by
  have ha : accepted (initialState "") (.whole 0) = true := by decide
  rw [allAccepted_initialState pageStatus _ _ ha, afterClicks_initialState pageStatus _ _ ha]
  decide

/-- C12: `WIN_LINES` is the three rows, the three columns, then the two diagonals;
for every board `getWinningLine` returns a line exactly when it is the first line of
`WIN_LINES`, in that order, whose three cells hold one and the same non-empty string,
and returns `null` exactly when no line of `WIN_LINES` is such; a line whose first cell
is empty never matches. -/
theorem C12_first_matching_line (b : List String) :
    WIN_LINES = [(0, 1, 2), (3, 4, 5), (6, 7, 8), (0, 3, 6), (1, 4, 7), (2, 5, 8),
      (0, 4, 8), (2, 4, 6)] ∧
    (∀ r : List Nat, getWinningLine b = some r ↔
      ∃ (j : Nat) (l : Nat × Nat × Nat), WIN_LINES[j]? = some l ∧ r = [l.1, l.2.1, l.2.2] ∧
        (∃ x, x ≠ "" ∧ b[l.1]? = some x ∧ b[l.2.1]? = some x ∧ b[l.2.2]? = some x) ∧
        ∀ (m : Nat) (lm : Nat × Nat × Nat), m < j → WIN_LINES[m]? = some lm →
          ¬ ∃ x, x ≠ "" ∧ b[lm.1]? = some x ∧ b[lm.2.1]? = some x ∧ b[lm.2.2]? = some x) ∧
    (getWinningLine b = none ↔
      ∀ l ∈ WIN_LINES,
        ¬ ∃ x, x ≠ "" ∧ b[l.1]? = some x ∧ b[l.2.1]? = some x ∧ b[l.2.2]? = some x) ∧
    (∀ l ∈ WIN_LINES, b[l.1]? = some "" → lineMatches b l = false) := by
  refine ⟨rfl, ?_, ?_, ?_⟩
  · intro r
    constructor
    · intro h
      obtain ⟨j, l, hj, hr, hm, hbefore⟩ := getWinningLineIn_eq_some b WIN_LINES r h
      refine ⟨j, l, hj, hr, (lineMatches_iff b l).mp hm, ?_⟩
      intro m lm hlt hlm hex
      have := hbefore m lm hlt hlm
      rw [(lineMatches_iff b lm).mpr hex] at this
      cases this
    · rintro ⟨j, l, hj, hr, hm, hbefore⟩
      have hm' : lineMatches b l = true := (lineMatches_iff b l).mpr hm
      have hsome : (getWinningLine b).isSome = true :=
        (getWinningLine_isSome b).mpr ⟨l, List.getElem?_mem hj, hm'⟩
      obtain ⟨r', hr'⟩ := Option.isSome_iff_exists.mp hsome
      obtain ⟨j', l', hj', hrl', hml', hbefore'⟩ := getWinningLineIn_eq_some b WIN_LINES r' hr'
      have hjj : j' = j := by
        rcases Nat.lt_trichotomy j' j with hlt | heq | hgt
        · exact absurd ((lineMatches_iff b l').mp hml') (hbefore j' l' hlt hj')
        · exact heq
        · have := hbefore' j l hgt hj
          rw [hm'] at this
          cases this
      subst hjj
      rw [hj] at hj'
      cases hj'
      rw [hr', hrl', hr]
  · rw [getWinningLine_eq_none]
    constructor
    · intro h l hl hex
      have := h l hl
      rw [(lineMatches_iff b l).mpr hex] at this
      cases this
    · intro h l hl
      cases hm : lineMatches b l with
      | false => rfl
      | true => exact absurd ((lineMatches_iff b l).mp hm) (h l hl)
  · intro l _ h0
    cases hm : lineMatches b l with
    | false => rfl
    | true =>
      obtain ⟨x, hx, e1, -, -⟩ := (lineMatches_iff b l).mp hm
      rw [h0] at e1
      exact absurd (Option.some.inj e1).symm hx

/-- C12, witness: with rows one and two both complete the first row is returned; an
all-empty row does not match. -/
theorem C12_first_matching_line_witness :
    getWinningLine ["X", "X", "X", "O", "O", "O", "", "", ""] = some [0, 1, 2] ∧
    lineMatches ["X", "", "", "O", "", "", "", "", ""] (6, 7, 8) = false :=
  ⟨((C12_first_matching_line ["X", "X", "X", "O", "O", "O", "", "", ""]).2.1 [0, 1, 2]).mpr
      ⟨0, (0, 1, 2), rfl, rfl, ⟨"X", by decide, rfl, rfl, rfl⟩,
        fun m _ hm _ => absurd hm (Nat.not_lt_zero m)⟩,
    (C12_first_matching_line ["X", "", "", "O", "", "", "", "", ""]).2.2.2 (6, 7, 8)
      (by decide) rfl⟩

/-- C13: in a state reached by legal play, when `getWinningLine` reports a line after
an accepted move, that line is a line of `WIN_LINES` whose three cells hold the
pre-move `currentPlayer`, it contains the index just played, the status text is
`<mover> wins!`, `gameOver` is true and `currentPlayer` is still the mover. -/
theorem C13_winner_is_mover (pageStatus : String) (s : Game) (i : Int) (r : List Nat)
    (hreach : LegalReach pageStatus s) (hg : s.gameOver = false)
    (_hlo : 0 ≤ i) (_hhi : i ≤ 8) (hc : arrayGet s.board (.whole i) = some "")
    (hw : getWinningLine (afterClick s (.whole i)).board = some r) :
    (∃ l ∈ WIN_LINES, r = [l.1, l.2.1, l.2.2] ∧
      (afterClick s (.whole i)).board[l.1]? = some s.currentPlayer ∧
      (afterClick s (.whole i)).board[l.2.1]? = some s.currentPlayer ∧
      (afterClick s (.whole i)).board[l.2.2]? = some s.currentPlayer) ∧
    i.toNat ∈ r ∧
    (afterClick s (.whole i)).statusText = s.currentPlayer ++ " wins!" ∧
    (afterClick s (.whole i)).gameOver = true ∧
    (afterClick s (.whole i)).currentPlayer = s.currentPlayer := by
  have hinv := LegalReach_inv pageStatus s hreach
  have hinv' := Inv_afterClick s (.whole i) hinv
  obtain ⟨hb, hover, hcp, hst⟩ := afterClick_accepted s _ hg hc
  obtain ⟨k, hk, -, hlt⟩ := arrayGet_eq_some _ _ _ hc
  have hik : i = (k : Int) := by injection hk
  subst hik
  have hsome : (getWinningLine (arraySet s.board (.whole (k : Int)) s.currentPlayer)).isSome
      = true := by
    rw [← hb, hw]; rfl
  have hgo : (afterClick s (.whole (k : Int))).gameOver = true := by rw [hover, hsome]; rfl
  have hcp' : (afterClick s (.whole (k : Int))).currentPlayer = s.currentPlayer := by
    rw [hcp, hsome]; rfl
  obtain ⟨j, l, hj, hr, hm, -⟩ := getWinningLineIn_eq_some _ WIN_LINES r hw
  have hl : l ∈ WIN_LINES := List.getElem?_mem hj
  obtain ⟨e1, e2, e3⟩ := matchingLines_over_cells _ hinv' hgo l hl hm
  rw [hcp'] at e1 e2 e3
  refine ⟨⟨l, hl, hr, e1, e2, e3⟩, ?_, ?_, hgo, hcp'⟩
  · by_contra hnot
    rw [hr] at hnot
    simp only [Int.toNat_ofNat, List.mem_cons, List.mem_singleton, List.not_mem_nil,
      or_false, not_or] at hnot
    rw [hb, arraySet_whole_nat,
      lineMatches_set_of_not_mem _ _ _ _ hnot.1 hnot.2.1 hnot.2.2,
      hinv.running_no_line hg l hl] at hm
    cases hm
  · rw [hst, hsome]; rfl

/-- C13, witness: after X@0 O@4 X@1 O@5 X@8 the move O@3 wins on the line [3,4,5]. -/
theorem C13_winner_is_mover_witness :
    3 ∈ [3, 4, 5] ∧
    (afterClick (afterClicks (initialState "")
      [.whole 0, .whole 4, .whole 1, .whole 5, .whole 8]) (.whole 3)).statusText = "O wins!" :=
  have h := C13_winner_is_mover ""
    (afterClicks (initialState "") [.whole 0, .whole 4, .whole 1, .whole 5, .whole 8]) 3
    [3, 4, 5] (LegalReach_afterClicks "" _ _ LegalReach.init (by decide)) (by decide)
    (by decide) (by decide) (by decide) (by decide)
  ⟨h.2.1, h.2.2.1⟩

/-- C14, the code at the winning move X@2 after X@0 O@4 X@1 O@5: the handler returns,
the reported line is [0,1,2], `highlightWin` marks the buttons 0, 1, 2, and after the
`render()` that follows no button carries the class `win`. -/
theorem C14_highlight_removed_by_render :
    onCellClick (afterClicks (initialState "") [.whole 0, .whole 4, .whole 1, .whole 5])
      (.whole 2) =
      .ok (afterClick (afterClicks (initialState "") [.whole 0, .whole 4, .whole 1, .whole 5])
        (.whole 2)) ∧
    getWinningLine (afterClick (afterClicks (initialState "")
      [.whole 0, .whole 4, .whole 1, .whole 5]) (.whole 2)).board = some [0, 1, 2] ∧
    (highlightWin (afterClicks (initialState "")
      [.whole 0, .whole 4, .whole 1, .whole 5]).cells [0, 1, 2]).map
        (fun cells => cells.map CellView.win) =
      .ok [true, true, true, false, false, false, false, false, false] ∧
    (afterClick (afterClicks (initialState "") [.whole 0, .whole 4, .whole 1, .whole 5])
      (.whole 2)).cells.map CellView.win =
      [false, false, false, false, false, false, false, false, false] :=
  ⟨onCellClick_returns _ _ (by decide), by decide, by rfl, by decide⟩

/-- C15, the code at the name `constructor`, which is no palette name and can be read
back from the store: `RAINBOW[colorName]` finds the inherited property, the fallback
to blue is skipped and `undefined` is handed to the style for both colours, not the
values of blue; a name such as `purple` does fall back to blue. -/
theorem C15_inherited_name_skips_fallback :
    "constructor" ∉ RAINBOW.map Prod.fst ∧
    savedBoard [(BOARD_COLOR_KEY, "constructor")] = "constructor" ∧
    rainbowGet "constructor" = PropertyValue.inherited ∧
    applyBoardColor "constructor" = none ∧
    applyMarkerColor "constructor" = none ∧
    applyBoardColor "blue" = some "rgba(59, 130, 246, 0.55)" ∧
    applyMarkerColor "blue" = some "#3b82f6" ∧
    applyBoardColor "constructor" ≠ applyBoardColor "blue" ∧
    applyMarkerColor "constructor" ≠ applyMarkerColor "blue" ∧
    applyBoardColor "purple" = applyBoardColor "blue" ∧
    applyMarkerColor "purple" = applyMarkerColor "blue" := by
  decide

/-- C16: for every input `applyTheme` sets `data-theme` to `light` when the input is
the string `light` and to `dark` otherwise, so to one of the two; the toggle button,
when the page has one, gets the label `Dark mode` and `aria-pressed` `true` for light,
`Light mode` and `false` for dark; the store is untouched; and `initTheme` applies
`light` exactly when the stored theme is `light`. -/
theorem C16_applyTheme_normalises (theme : Option String) (pg : Page) :
    (applyTheme theme pg).dataTheme =
      some (if theme = some "light" then "light" else "dark") ∧
    ((applyTheme theme pg).dataTheme = some "light" ∨
      (applyTheme theme pg).dataTheme = some "dark") ∧
    (applyTheme theme pg).themeToggleBtn =
      pg.themeToggleBtn.map (fun _ =>
        { textContent := if theme = some "light" then "Dark mode" else "Light mode"
          ariaPressed := if theme = some "light" then "true" else "false" }) ∧
    (applyTheme theme pg).localStorage = pg.localStorage ∧
    (initTheme pg).dataTheme =
      some (if getItem pg.localStorage THEME_KEY = some "light" then "light" else "dark") := by
  refine ⟨applyTheme_dataTheme theme pg, ?_, applyTheme_themeToggleBtn theme pg,
    applyTheme_localStorage theme pg, ?_⟩
  · rw [applyTheme_dataTheme]
    by_cases h : theme = some "light" <;> simp [h]
  · unfold initTheme
    rw [applyTheme_dataTheme]
    unfold savedTheme jsOr
    cases hg : getItem pg.localStorage THEME_KEY with
    | none => simp
    | some v =>
      by_cases hv : v = ""
      · subst hv; simp
      · simp [hv]

/-- C17: with the store a map from strings to strings, writing a valid value (`dark`
or `light` for the theme, a palette name for the colours) under its key and then
doing the startup read returns that value; the startup read of a key that is absent
returns `dark` for the theme and `blue` for both colours; after `toggleTheme` the
startup read returns the theme it switched to. -/
theorem C17_preference_round_trip (store : List (String × String)) (v : String) :
    (v = "dark" ∨ v = "light" → savedTheme (setItem store THEME_KEY v) = v) ∧
    (v ∈ RAINBOW.map Prod.fst →
      savedBoard (boardColorChanged store v).1 = v ∧
      savedMarker (markerColorChanged store v).1 = v) ∧
    (getItem store THEME_KEY = none → savedTheme store = "dark") ∧
    (getItem store BOARD_COLOR_KEY = none → savedBoard store = "blue") ∧
    (getItem store MARKER_COLOR_KEY = none → savedMarker store = "blue") ∧
    (∀ pg : Page, savedTheme (toggleTheme pg).localStorage =
      if jsOr pg.dataTheme "dark" = "light" then "dark" else "light") := by
  refine ⟨?_, ?_, ?_, ?_, ?_, ?_⟩
  · intro h
    apply read_after_write
    rcases h with h | h <;> rw [h] <;> decide
  · intro h
    have hne := palette_name_ne_empty v h
    exact ⟨read_after_write store BOARD_COLOR_KEY v "blue" hne,
      read_after_write store MARKER_COLOR_KEY v "blue" hne⟩
  · intro h; simp [savedTheme, h, jsOr]
  · intro h; simp [savedBoard, h, jsOr]
  · intro h; simp [savedMarker, h, jsOr]
  · intro pg
    unfold toggleTheme
    simp only [applyTheme_localStorage]
    apply read_after_write
    split <;> decide

/-- C17, witness: `light` written to an empty store, `violet` written over `red`, and
the marker colour read from an empty store. -/
theorem C17_preference_round_trip_witness :
    savedTheme (setItem [] THEME_KEY "light") = "light" ∧
    savedBoard (boardColorChanged [(BOARD_COLOR_KEY, "red")] "violet").1 = "violet" ∧
    savedMarker [] = "blue" :=
  have h := C17_preference_round_trip [] "light"
  have h2 := C17_preference_round_trip [(BOARD_COLOR_KEY, "red")] "violet"
  ⟨h.1 (Or.inr rfl), (h2.2.1 (by decide)).1, h.2.2.2.2.1 (by decide)⟩

/-- C18, the claim as written fails: on a freshly loaded page with an empty store the
theme is dark and nothing is stored; after two `toggleTheme` calls the theme is dark
again but `dark` is stored under the theme key. -/
theorem C18_stored_value_counterexample :
    initTheme { dataTheme := none, themeToggleBtn := some ⟨"", ""⟩, localStorage := [] } =
      { dataTheme := some "dark", themeToggleBtn := some ⟨"Light mode", "false"⟩,
        localStorage := [] } ∧
    getItem (initTheme
      { dataTheme := none, themeToggleBtn := some ⟨"", ""⟩, localStorage := [] }).localStorage
      THEME_KEY = none ∧
    (toggleTheme (toggleTheme (initTheme
      { dataTheme := none, themeToggleBtn := some ⟨"", ""⟩, localStorage := [] }))).dataTheme =
      some "dark" ∧
    getItem (toggleTheme (toggleTheme (initTheme
      { dataTheme := none, themeToggleBtn := some ⟨"", ""⟩,
        localStorage := [] }))).localStorage THEME_KEY = some "dark" ∧
    getItem (toggleTheme (toggleTheme (initTheme
      { dataTheme := none, themeToggleBtn := some ⟨"", ""⟩,
        localStorage := [] }))).localStorage THEME_KEY ≠
      getItem (initTheme
        { dataTheme := none, themeToggleBtn := some ⟨"", ""⟩,
          localStorage := [] }).localStorage THEME_KEY := by
  decide

/-- C18, amended: with `data-theme` equal to `dark`, `light` or absent (absent counts
as dark), `toggleTheme` sets `data-theme` to the other value, stores that value under
the theme key and labels the button to match; two consecutive calls give back the
effective theme and leave it stored, which is the stored value from before whenever
that was the effective theme. -/
theorem C18_toggle_flips (pg : Page)
    (h : pg.dataTheme = some "dark" ∨ pg.dataTheme = some "light" ∨ pg.dataTheme = none) :
    (toggleTheme pg).dataTheme =
      some (if jsOr pg.dataTheme "dark" = "light" then "dark" else "light") ∧
    (if jsOr pg.dataTheme "dark" = "light" then "dark" else "light") ≠
      jsOr pg.dataTheme "dark" ∧
    getItem (toggleTheme pg).localStorage THEME_KEY = (toggleTheme pg).dataTheme ∧
    (toggleTheme pg).themeToggleBtn =
      pg.themeToggleBtn.map (fun _ =>
        { textContent :=
            if (toggleTheme pg).dataTheme = some "light" then "Dark mode" else "Light mode"
          ariaPressed := if (toggleTheme pg).dataTheme = some "light" then "true" else "false" }) ∧
    (toggleTheme (toggleTheme pg)).dataTheme = some (jsOr pg.dataTheme "dark") ∧
    getItem (toggleTheme (toggleTheme pg)).localStorage THEME_KEY =
      some (jsOr pg.dataTheme "dark") ∧
    (getItem pg.localStorage THEME_KEY = some (jsOr pg.dataTheme "dark") →
      getItem (toggleTheme (toggleTheme pg)).localStorage THEME_KEY =
        getItem pg.localStorage THEME_KEY) := by
  have hone : ∀ q : Page,
      (toggleTheme q).dataTheme =
        some (if jsOr q.dataTheme "dark" = "light" then "dark" else "light") ∧
      getItem (toggleTheme q).localStorage THEME_KEY = (toggleTheme q).dataTheme ∧
      (toggleTheme q).themeToggleBtn =
        q.themeToggleBtn.map (fun _ =>
          { textContent :=
              if (toggleTheme q).dataTheme = some "light" then "Dark mode" else "Light mode"
            ariaPressed :=
              if (toggleTheme q).dataTheme = some "light" then "true" else "false" }) := by
    intro q
    have hd : (toggleTheme q).dataTheme =
        some (if jsOr q.dataTheme "dark" = "light" then "dark" else "light") := by
      unfold toggleTheme
      rw [applyTheme_dataTheme]
      by_cases hl : jsOr q.dataTheme "dark" = "light" <;> simp [hl]
    refine ⟨hd, ?_, ?_⟩
    · rw [hd]
      unfold toggleTheme
      rw [applyTheme_localStorage]
      exact getItem_setItem _ _ _
    · rw [hd]
      unfold toggleTheme
      rw [applyTheme_themeToggleBtn]
  obtain ⟨h1, h2, h3⟩ := hone pg
  obtain ⟨k1, k2, -⟩ := hone (toggleTheme pg)
  have htwo : (toggleTheme (toggleTheme pg)).dataTheme = some (jsOr pg.dataTheme "dark") := by
    rw [k1, h1]
    rcases h with h | h | h <;> rw [h] <;> decide
  refine ⟨h1, ?_, h2, h3, htwo, ?_, ?_⟩
  · rcases h with h | h | h <;> rw [h] <;> decide
  · rw [k2, htwo]
  · intro hs
    rw [k2, htwo, hs]

/-- C18, witness: a light page with `light` stored is dark after one call and has
`light` stored again after two. -/
theorem C18_toggle_flips_witness :
    (toggleTheme
      { dataTheme := some "light", themeToggleBtn := some ⟨"Dark mode", "true"⟩,
        localStorage := [(THEME_KEY, "light")] }).dataTheme = some "dark" ∧
    getItem (toggleTheme (toggleTheme
      { dataTheme := some "light", themeToggleBtn := some ⟨"Dark mode", "true"⟩,
        localStorage := [(THEME_KEY, "light")] })).localStorage THEME_KEY = some "light" :=
  have h := C18_toggle_flips
    { dataTheme := some "light", themeToggleBtn := some ⟨"Dark mode", "true"⟩,
      localStorage := [(THEME_KEY, "light")] } (Or.inr (Or.inl rfl))
  ⟨h.1, h.2.2.2.2.2.1⟩

/-- C19: in every state reached from the loaded page by cell activations and restarts,
`gameOver` is true exactly when `getWinningLine(board)` is not `null` or all 9 cells are
non-empty; as a Boolean, `gameOver` equals `getWinningLine(board) != null || isDraw(board)`. -/
theorem C19_gameOver_agrees_with_board (pageStatus : String) (s : Game)
    (h : Reach pageStatus s) :
    (s.gameOver = true ↔
      (getWinningLine s.board ≠ none ∨ (s.board.length = 9 ∧ ∀ c ∈ s.board, c ≠ ""))) ∧
    s.gameOver = ((getWinningLine s.board).isSome || isDraw s.board) := by
  have hinv := Reach_inv pageStatus s h
  have hiff : s.gameOver = true ↔
      (getWinningLine s.board ≠ none ∨ (s.board.length = 9 ∧ ∀ c ∈ s.board, c ≠ "")) := by
    constructor
    · intro hg
      rcases hinv.over_cause hg with hl | hd
      · left
        rw [Ne, getWinningLine_eq_none]
        obtain ⟨l, hl, hm⟩ := hl
        intro hall
        rw [hall l hl] at hm
        cases hm
      · right
        exact ⟨hinv.length_board, (isDraw_eq_true _).mp hd⟩
    · intro hcause
      cases hg : s.gameOver with
      | true => rfl
      | false =>
        rcases hcause with hl | hd
        · exact absurd ((getWinningLine_eq_none _).mpr (hinv.running_no_line hg)) hl
        · have := hinv.running_not_full hg
          rw [(isDraw_eq_true _).mpr hd.2] at this
          cases this
  refine ⟨hiff, ?_⟩
  cases hg : s.gameOver with
  | true =>
    rcases hinv.over_cause hg with hl | hd
    · rw [(getWinningLine_isSome _).mpr hl]; rfl
    · rw [hd]; simp
  | false =>
    have h1 := (getWinningLine_eq_none _).mpr (hinv.running_no_line hg)
    rw [h1, hinv.running_not_full hg]; rfl

/-- C19, witness: after a restart, X@0 O@4 X@1 O@5 X@2 (with one rejected activation
in between) ends the game, and the board shows why: a line matches. -/
theorem C19_gameOver_agrees_with_board_witness :
    (afterClicks (restartGame (afterClicks (initialState "") [.whole 3, .whole 3]))
      [.whole 0, .whole 4, .whole 1, .nonWhole, .whole 5, .whole 2]).gameOver = true ∧
    (getWinningLine (afterClicks (restartGame (afterClicks (initialState "")
        [.whole 3, .whole 3]))
        [.whole 0, .whole 4, .whole 1, .nonWhole, .whole 5, .whole 2]).board ≠ none ∨
      ((afterClicks (restartGame (afterClicks (initialState "") [.whole 3, .whole 3]))
        [.whole 0, .whole 4, .whole 1, .nonWhole, .whole 5, .whole 2]).board.length = 9 ∧
        ∀ c ∈ (afterClicks (restartGame (afterClicks (initialState "")
          [.whole 3, .whole 3]))
          [.whole 0, .whole 4, .whole 1, .nonWhole, .whole 5, .whole 2]).board, c ≠ "")) :=
  ⟨by decide,
   (C19_gameOver_agrees_with_board "" _
      (Reach_afterClicks "" _ [.whole 0, .whole 4, .whole 1, .nonWhole, .whole 5, .whole 2]
        (Reach.restart _ (Reach_afterClicks "" (initialState "") [.whole 3, .whole 3]
          Reach.init)))).1.mp (by decide)⟩

/-- C20: in every state reached from the loaded page by cell activations and restarts,
the board has 9 cells, each the empty string, X or O; the number of X cells is the
number of O cells or one more; and while `gameOver` is false `currentPlayer` is X
exactly when the counts are equal and O exactly when X has one more. -/
theorem C20_cells_and_counts (pageStatus : String) (s : Game) (h : Reach pageStatus s) :
    s.board.length = 9 ∧
    (∀ c ∈ s.board, c = "" ∨ c = "X" ∨ c = "O") ∧
    (s.board.count "X" = s.board.count "O" ∨ s.board.count "X" = s.board.count "O" + 1) ∧
    (s.gameOver = false →
      (s.currentPlayer = "X" ↔ s.board.count "X" = s.board.count "O") ∧
      (s.currentPlayer = "O" ↔ s.board.count "X" = s.board.count "O" + 1)) := by
  have hinv := Reach_inv pageStatus s h
  have hXO : ("X" : String) ≠ "O" := by decide
  refine ⟨hinv.length_board, hinv.cell_values, ?_, ?_⟩
  · cases hg : s.gameOver with
    | false => rcases hinv.running_counts hg with ⟨-, hc⟩ | ⟨-, hc⟩ <;> simp [hc]
    | true => rcases hinv.over_counts hg with ⟨-, hc⟩ | ⟨-, hc⟩ <;> simp [hc]
  · intro hg
    rcases hinv.running_counts hg with ⟨hp, hc⟩ | ⟨hp, hc⟩
    · rw [hp, hc]
      exact ⟨⟨fun _ => rfl, fun _ => rfl⟩, ⟨fun e => absurd e hXO, fun e => by omega⟩⟩
    · rw [hp, hc]
      exact ⟨⟨fun e => absurd e.symm hXO, fun e => by omega⟩, ⟨fun _ => rfl, fun _ => rfl⟩⟩

/-- C20, witness: after a restart and the accepted moves X@4, O@0, X@8 it is O to move
with one more X than O. -/
theorem C20_cells_and_counts_witness :
    (afterClicks (restartGame (afterClicks (initialState "") [.whole 3, .whole 3]))
      [.whole 4, .whole 9, .whole 0, .whole 8]).board.count "X" =
    (afterClicks (restartGame (afterClicks (initialState "") [.whole 3, .whole 3]))
      [.whole 4, .whole 9, .whole 0, .whole 8]).board.count "O" + 1 ∧
    (afterClicks (restartGame (afterClicks (initialState "") [.whole 3, .whole 3]))
      [.whole 4, .whole 9, .whole 0, .whole 8]).currentPlayer = "O" :=
  have h := C20_cells_and_counts "" _
    (Reach_afterClicks "" _ [.whole 4, .whole 9, .whole 0, .whole 8]
      (Reach.restart _ (Reach_afterClicks "" (initialState "") [.whole 3, .whole 3]
        Reach.init)))
  have hc : (afterClicks (restartGame (afterClicks (initialState "") [.whole 3, .whole 3]))
      [.whole 4, .whole 9, .whole 0, .whole 8]).currentPlayer = "O" := by decide
  ⟨((h.2.2.2 (by decide)).2).mp hc, hc⟩

end TicTacToe
